import Mathlib

/-!
# Equalizer: response curve, spectrum-path pipeline and editor handlers

A shallow embedding of `Source/PluginEditor.cpp`.

Floating-point values are kept abstract: every definition is generic in the
number type `α`, of which only the operations the source uses are required
(`*`, the constant `1`, the zero that `resize` fills in, `/`, and the
conversion of an `int`).  The JUCE routines the source calls
(`getMagnitudeForFrequency`, `Decibels::gainToDecibels`, `mapToLog10`,
`jmap`) are parameters, collected in `Dsp`.
-/

namespace Equalizer

/-! ## Filter chain state -/

/-- A cut filter (`CutFilter` in the source): four cascaded sections,
`get<k>().coefficients` and `isBypassed<k>()` for `k = 0..3`. -/
structure CutFilter (C : Type) where
  coefficients0 : C
  coefficients1 : C
  coefficients2 : C
  coefficients3 : C
  isBypassed0 : Bool
  isBypassed1 : Bool
  isBypassed2 : Bool
  isBypassed3 : Bool
deriving DecidableEq, Repr

/-- The `monoChain` of the response curve component: low-cut group, peak
filter, high-cut group, and the bypass flag of each of the three positions
(`monoChain.isBypassed<ChainPositions::...>()`). -/
structure MonoChain (C : Type) where
  lowCut : CutFilter C
  peak : C
  highCut : CutFilter C
  lowCutBypassed : Bool
  peakBypassed : Bool
  highCutBypassed : Bool
deriving DecidableEq, Repr

/-- The three positions of the chain (`ChainPositions`). -/
inductive ChainPositions where
  | LowCut
  | Peak
  | HighCut
deriving DecidableEq, Repr

/-- The numeric library routines `paint` calls, as parameters:
`Coefficients::getMagnitudeForFrequency (freq, sampleRate)`,
`Decibels::gainToDecibels`, `mapToLog10 (value0To1, min, max)` and
`jmap (value, sourceMin, sourceMax, targetMin, targetMax)`. -/
structure Dsp (C α : Type) where
  getMagnitudeForFrequency : C → α → α → α
  gainToDecibels : α → α
  mapToLog10 : α → α → α → α
  jmap : α → α → α → α → α → α

/-! ## Rectangles (`juce::Rectangle<int>`) -/

/-- An integer rectangle: position `x`, `y` and size `w`, `h`. -/
structure Rectangle where
  x : Int
  y : Int
  w : Int
  h : Int
deriving DecidableEq, Repr

namespace Rectangle

def getX (r : Rectangle) : Int := r.x
def getY (r : Rectangle) : Int := r.y
def getWidth (r : Rectangle) : Int := r.w
def getHeight (r : Rectangle) : Int := r.h
def getRight (r : Rectangle) : Int := r.x + r.w
def getBottom (r : Rectangle) : Int := r.y + r.h

/-- The rectangle left after `removeFromTop (amountToRemove)`: the strip removed
has height `jmin (amountToRemove, h)`; `y` moves down and `h` shrinks by it. -/
def removeFromTop (r : Rectangle) (amountToRemove : Int) : Rectangle :=
  let rh := min amountToRemove r.h
  { r with y := r.y + rh, h := r.h - rh }

/-- The rectangle left after `removeFromBottom (amountToRemove)`: the amount is
first limited to `h`, then taken off the height. -/
def removeFromBottom (r : Rectangle) (amountToRemove : Int) : Rectangle :=
  let amount := min amountToRemove r.h
  { r with h := r.h - amount }

/-- The rectangle left after `removeFromLeft (amountToRemove)`: the strip removed
has width `jmin (amountToRemove, w)`; `x` moves right and `w` shrinks by it. -/
def removeFromLeft (r : Rectangle) (amountToRemove : Int) : Rectangle :=
  let rw := min amountToRemove r.w
  { r with x := r.x + rw, w := r.w - rw }

/-- The rectangle left after `removeFromRight (amountToRemove)`: the amount is
first limited to `w`, then taken off the width. -/
def removeFromRight (r : Rectangle) (amountToRemove : Int) : Rectangle :=
  let amount := min amountToRemove r.w
  { r with w := r.w - amount }

/-- `Rectangle::contains (other)`: `other` lies inside `r`. -/
def contains (r other : Rectangle) : Prop :=
  r.x ≤ other.x ∧ r.y ≤ other.y ∧ r.x + r.w ≥ other.x + other.w ∧ r.y + r.h ≥ other.y + other.h

instance (r other : Rectangle) : Decidable (r.contains other) := by
  unfold contains
  infer_instance

end Rectangle

/-- `ResponseCurveComponent::getRenderArea`, from the component's local bounds. -/
def getRenderArea (localBounds : Rectangle) : Rectangle :=
  let bounds := localBounds
  let bounds := bounds.removeFromTop 12
  let bounds := bounds.removeFromBottom 2
  let bounds := bounds.removeFromLeft 20
  let bounds := bounds.removeFromRight 20
  bounds

/-- `ResponseCurveComponent::getAnalysisArea`. -/
def getAnalysisArea (localBounds : Rectangle) : Rectangle :=
  let bounds := getRenderArea localBounds
  let bounds := bounds.removeFromTop 4
  let bounds := bounds.removeFromBottom 4
  bounds

/-- `Component::getLocalBounds` of a component `width` pixels wide and `height`
pixels high: the rectangle `(0, 0, width, height)`. -/
def getLocalBounds (width height : Nat) : Rectangle :=
  { x := 0, y := 0, w := width, h := height }

/-! ## `ResponseCurveComponent::paint`: the response curve -/

section Paint

variable {C α : Type}

/-- The frequency of column `i` of `width` columns:
`mapToLog10 (double (i) / double (width), 20.0, 20000.0)`. -/
def columnFrequency [Div α] [IntCast α] (dsp : Dsp C α) (i : Int) (width : Int) : α :=
  dsp.mapToLog10 ((i : α) / (width : α)) ((20 : Int) : α) ((20000 : Int) : α)

/-- The body of the column loop of `paint` up to the conversion to decibels:
`mag` starts at `1` and is multiplied by the magnitude of every stage that is
not bypassed: the peak first, then the sections of the low cut, then the
sections of the high cut. -/
def columnMagnitude [Mul α] [One α] (dsp : Dsp C α) (monoChain : MonoChain C)
    (freq sampleRate : α) : α :=
  let lowcut := monoChain.lowCut
  let peak := monoChain.peak
  let highcut := monoChain.highCut
  let mag : α := 1
  let mag := if !monoChain.peakBypassed then
      mag * dsp.getMagnitudeForFrequency peak freq sampleRate else mag
  let mag := if !monoChain.lowCutBypassed then
      let mag := if !lowcut.isBypassed0 then
        mag * dsp.getMagnitudeForFrequency lowcut.coefficients0 freq sampleRate else mag
      let mag := if !lowcut.isBypassed1 then
        mag * dsp.getMagnitudeForFrequency lowcut.coefficients1 freq sampleRate else mag
      let mag := if !lowcut.isBypassed2 then
        mag * dsp.getMagnitudeForFrequency lowcut.coefficients2 freq sampleRate else mag
      let mag := if !lowcut.isBypassed3 then
        mag * dsp.getMagnitudeForFrequency lowcut.coefficients3 freq sampleRate else mag
      mag
    else mag
  let mag := if !monoChain.highCutBypassed then
      let mag := if !highcut.isBypassed0 then
        mag * dsp.getMagnitudeForFrequency highcut.coefficients0 freq sampleRate else mag
      let mag := if !highcut.isBypassed1 then
        mag * dsp.getMagnitudeForFrequency highcut.coefficients1 freq sampleRate else mag
      let mag := if !highcut.isBypassed2 then
        mag * dsp.getMagnitudeForFrequency highcut.coefficients2 freq sampleRate else mag
      let mag := if !highcut.isBypassed3 then
        mag * dsp.getMagnitudeForFrequency highcut.coefficients3 freq sampleRate else mag
      mag
    else mag
  mag

/-- A checked store `mags[i] = v`: `none` when `i` is not an index of `mags`. -/
def storeAt (mags : List α) (i : Nat) (v : α) : Option (List α) :=
  if i < mags.length then some (mags.set i v) else none

/-- The first half of `paint`: `mags.resize (width)` followed by the loop
`for (int i = 0; i < width; i++)` that stores
`gainToDecibels (mag)` in `mags[i]`.  `none` if the size is negative or a
store misses the vector. -/
def paintMags [Mul α] [One α] [Zero α] [Div α] [IntCast α] (dsp : Dsp C α)
    (monoChain : MonoChain C) (sampleRate : α) (width : Int) : Option (List α) :=
  if width < 0 then none
  else
    let mags : List α := List.replicate width.toNat 0
    (List.range width.toNat).foldlM
      (fun (mags : List α) (i : Nat) =>
        let freq := columnFrequency dsp (Int.ofNat i) width
        let mag := columnMagnitude dsp monoChain freq sampleRate
        storeAt mags i (dsp.gainToDecibels mag))
      mags

/-- An element of a `juce::Path`. -/
inductive PathElement (α : Type) where
  | startNewSubPath (x : Int) (y : α)
  | lineTo (x : Int) (y : α)
deriving DecidableEq, Repr

/-- The `map` lambda of `paint`: `jmap (input, -24.0, 24.0, outputMin, outputMax)`
with `outputMin` the bottom and `outputMax` the top of the response area. -/
def mapToArea [IntCast α] (dsp : Dsp C α) (responseArea : Rectangle) (input : α) : α :=
  dsp.jmap input ((-24 : Int) : α) ((24 : Int) : α)
    ((responseArea.getBottom : Int) : α) ((responseArea.getY : Int) : α)

/-- The second half of `paint`: the response curve built from `mags`.
`mags.front ()` and every `mags[i]` are checked reads: `none` when the
element does not exist. -/
def responseCurve [IntCast α] (dsp : Dsp C α) (responseArea : Rectangle)
    (mags : List α) : Option (List (PathElement α)) :=
  match mags.head? with
  | none => none
  | some front =>
    (List.range' 1 (mags.length - 1)).foldlM
      (fun (path : List (PathElement α)) (i : Nat) =>
        match mags[i]? with
        | none => none
        | some m =>
          some (path ++ [PathElement.lineTo (responseArea.getX + Int.ofNat i)
            (mapToArea dsp responseArea m)]))
      [PathElement.startNewSubPath responseArea.getX (mapToArea dsp responseArea front)]

/-- The response curve `ResponseCurveComponent::paint` builds for a component
of the given size, chain and sample rate. -/
def paint [Mul α] [One α] [Zero α] [Div α] [IntCast α] (dsp : Dsp C α)
    (monoChain : MonoChain C) (sampleRate : α) (componentWidth componentHeight : Nat) :
    Option (List (PathElement α)) :=
  let responseArea := getAnalysisArea (getLocalBounds componentWidth componentHeight)
  let width := responseArea.getWidth
  match paintMags dsp monoChain sampleRate width with
  | none => none
  | some mags => responseCurve dsp responseArea mags

/-- The magnitudes of the sections of a cut filter that are not individually
bypassed, in section order. -/
def cutStageMagnitudes (dsp : Dsp C α) (cut : CutFilter C) (freq sampleRate : α) : List α :=
  (if cut.isBypassed0 then []
    else [dsp.getMagnitudeForFrequency cut.coefficients0 freq sampleRate]) ++
  (if cut.isBypassed1 then []
    else [dsp.getMagnitudeForFrequency cut.coefficients1 freq sampleRate]) ++
  (if cut.isBypassed2 then []
    else [dsp.getMagnitudeForFrequency cut.coefficients2 freq sampleRate]) ++
  (if cut.isBypassed3 then []
    else [dsp.getMagnitudeForFrequency cut.coefficients3 freq sampleRate])

/-- The factors a band contributes to the response at `(freq, sampleRate)`:
none when the band is bypassed; otherwise the magnitude of the peak filter,
resp. of the sections of the cut filter that are not individually bypassed. -/
def bandMagnitudes (dsp : Dsp C α) (monoChain : MonoChain C) (freq sampleRate : α) :
    ChainPositions → List α
  | .Peak =>
    if monoChain.peakBypassed then []
    else [dsp.getMagnitudeForFrequency monoChain.peak freq sampleRate]
  | .LowCut =>
    if monoChain.lowCutBypassed then []
    else cutStageMagnitudes dsp monoChain.lowCut freq sampleRate
  | .HighCut =>
    if monoChain.highCutBypassed then []
    else cutStageMagnitudes dsp monoChain.highCut freq sampleRate

/-- The order in which `paint` visits the bands. -/
def paintOrder : List ChainPositions := [.Peak, .LowCut, .HighCut]

/-- The magnitude responses at `(freq, sampleRate)` of exactly the stages that
are not bypassed. -/
def activeStageMagnitudes (dsp : Dsp C α) (monoChain : MonoChain C) (freq sampleRate : α) :
    List α :=
  paintOrder.flatMap (bandMagnitudes dsp monoChain freq sampleRate)

/-- The product of a list of factors, multiplied from the left starting at `1`,
the way `mag *= ...` accumulates it. -/
def productOf [Mul α] [One α] (factors : List α) : α :=
  factors.foldl (· * ·) 1

/-- The line segments `responseCurve` appends for the elements `rest` of `mags`
that start at index `start`. -/
def curveSegments [IntCast α] (dsp : Dsp C α) (responseArea : Rectangle) (start : Nat)
    (rest : List α) : List (PathElement α) :=
  (rest.enumFrom start).map fun p =>
    PathElement.lineTo (responseArea.getX + Int.ofNat p.1) (mapToArea dsp responseArea p.2)

/-- The bypass flag of a band (`monoChain.isBypassed<band>()`). -/
def MonoChain.isBypassed (monoChain : MonoChain C) : ChainPositions → Bool
  | .LowCut => monoChain.lowCutBypassed
  | .Peak => monoChain.peakBypassed
  | .HighCut => monoChain.highCutBypassed

/-- Two chain states agree on everything except the coefficients and the
per-section bypass flags of `band`: the three band flags are equal, and so is
the content of the two other bands. -/
def agreeOutside (band : ChainPositions) (c1 c2 : MonoChain C) : Prop :=
  c1.lowCutBypassed = c2.lowCutBypassed ∧ c1.peakBypassed = c2.peakBypassed ∧
  c1.highCutBypassed = c2.highCutBypassed ∧
  (band ≠ .LowCut → c1.lowCut = c2.lowCut) ∧
  (band ≠ .Peak → c1.peak = c2.peak) ∧
  (band ≠ .HighCut → c1.highCut = c2.highCut)

/-- The magnitude of the chain with `band` omitted: the product of the factors
of the other bands only. -/
def magnitudeOmitting [Mul α] [One α] (band : ChainPositions) (dsp : Dsp C α)
    (monoChain : MonoChain C) (freq sampleRate : α) : α :=
  productOf ((paintOrder.filter (fun p => decide (p ≠ band))).flatMap
    (bandMagnitudes dsp monoChain freq sampleRate))

/-- A small concrete instance over the integers: the magnitude of a stage is
its coefficient, whatever the frequency; decibels are the gain itself. -/
def exampleDsp : Dsp Int Int where
  getMagnitudeForFrequency := fun c _ _ => c
  gainToDecibels := fun g => g
  mapToLog10 := fun v lo hi => lo + v * (hi - lo)
  jmap := fun v _ _ lo hi => lo + v * (hi - lo)

/-- A chain with the peak filter (magnitude 2) and the first two sections of
the low cut (magnitudes 3 and 5) active; the high-cut band is bypassed. -/
def exampleChain : MonoChain Int where
  lowCut := ⟨3, 5, 7, 11, false, false, true, true⟩
  peak := 2
  highCut := ⟨13, 17, 19, 23, false, false, false, false⟩
  lowCutBypassed := false
  peakBypassed := false
  highCutBypassed := true

/-- The same chain with other coefficients and section flags in the bypassed
high-cut band. -/
def exampleChainOtherHighCut : MonoChain Int :=
  { exampleChain with highCut := ⟨29, 31, 37, 41, true, false, true, false⟩ }

end Paint

/-! ## `PathProducer::process`: draining the FIFO into spectrum paths -/

section Process

/-- Why a run has no result: a copy would leave its buffer, or the loop bound of
the model is used up (the loop was still running). -/
inductive Fault where
  | outOfBounds
  | outOfFuel
deriving DecidableEq, Repr

variable {S : Type}

/-- The element loop of `FloatVectorOperations::copy (dest, src, num)` when
source and destination lie in the same buffer, at offsets `srcOffset` and
`destOffset`: elements are copied one by one from the front, each read seeing
the stores made before it.  `none` when an element is outside the buffer. -/
def copyWithinLoop (buffer : List S) (destOffset srcOffset : Nat) : Nat → Option (List S)
  | 0 => some buffer
  | num + 1 =>
    match buffer[srcOffset]? with
    | none => none
    | some x =>
      if destOffset < buffer.length then
        copyWithinLoop (buffer.set destOffset x) (destOffset + 1) (srcOffset + 1) num
      else none

/-- The element loop of `FloatVectorOperations::copy (dest, src, num)` from
another buffer `src`. -/
def copyFromLoop (dest : List S) (destOffset : Nat) (src : List S) (srcOffset : Nat) :
    Nat → Option (List S)
  | 0 => some dest
  | num + 1 =>
    match src[srcOffset]? with
    | none => none
    | some x =>
      if destOffset < dest.length then
        copyFromLoop (dest.set destOffset x) (destOffset + 1) src (srcOffset + 1) num
      else none

/-- `FloatVectorOperations::copy` inside one buffer, with the `int` offsets and
count of the call: a negative offset or count has no defined result. -/
def copyWithin (buffer : List S) (destOffset srcOffset num : Int) : Option (List S) :=
  if destOffset < 0 ∨ srcOffset < 0 ∨ num < 0 then none
  else copyWithinLoop buffer destOffset.toNat srcOffset.toNat num.toNat

/-- `FloatVectorOperations::copy` from another buffer, with `int` offsets and count. -/
def copyFrom (dest : List S) (destOffset : Int) (src : List S) (srcOffset num : Int) :
    Option (List S) :=
  if destOffset < 0 ∨ srcOffset < 0 ∨ num < 0 then none
  else copyFromLoop dest destOffset.toNat src srcOffset.toNat num.toNat

/-- The two copies of `process` on channel 0 of `monoBuffer`:
`copy (mono + 0, mono + size, numSamples - size)` shifts the buffer left, then
`copy (mono + numSamples - size, incoming + 0, size)` appends the new block. -/
def shiftMonoBuffer (monoBuffer tempIncomingBuffer : List S) : Option (List S) :=
  let size : Int := tempIncomingBuffer.length
  let numSamples : Int := monoBuffer.length
  match copyWithin monoBuffer 0 size (numSamples - size) with
  | none => none
  | some monoBuffer => copyFrom monoBuffer (numSamples - size) tempIncomingBuffer 0 size

/-- The operations `process` calls on the sample FIFO, the FFT data generator
and the path generator, whose classes are declared outside this file: taken as
parameters.  `F`, `G`, `P` are the states of the three objects.  A pull
(`getAudioBuffer`, `getFFTData`, `getPath`) returns the element when it
succeeds, and the new state of the object. -/
structure Collaborators (S F G P Frame Path Bounds Rate : Type) where
  getNumCompleteBuffersAvailable : F → Nat
  getAudioBuffer : F → Option (List S) × F
  produceFFTDataForRendering : G → List S → G
  getNumAvailableFFTDataBlocks : G → Nat
  getFFTData : G → Option Frame × G
  generatePath : P → Frame → Bounds → Rate → P
  getNumPathsAvailable : P → Nat
  getPath : P → Option Path × P

/-- The members of `PathProducer` that `process` uses. -/
structure PathProducer (S F G P Path : Type) where
  leftChannelFifo : F
  monoBuffer : List S
  leftChannelFFTDataGenerator : G
  pathProducer : P
  leftChannelFFTPath : Path

variable {F G P Frame Path Bounds Rate : Type}

/-- A `while (cond) body` loop, run for at most `fuel` iterations. -/
def whileLoop {σ : Type} (cond : σ → Bool) (body : σ → Except Fault σ) :
    Nat → σ → Except Fault σ
  | 0, s => if cond s then .error .outOfFuel else .ok s
  | fuel + 1, s =>
    if cond s then
      match body s with
      | .ok s => whileLoop cond body fuel s
      | .error e => .error e
    else .ok s

/-- Body of the first loop of `process`: if a buffer can be pulled from the
FIFO, shift it into `monoBuffer` and hand the buffer to the FFT data generator. -/
def sendSamplesBody (ops : Collaborators S F G P Frame Path Bounds Rate)
    (pp : PathProducer S F G P Path) : Except Fault (PathProducer S F G P Path) :=
  match ops.getAudioBuffer pp.leftChannelFifo with
  | (some tempIncomingBuffer, fifo) =>
    match shiftMonoBuffer pp.monoBuffer tempIncomingBuffer with
    | none => .error .outOfBounds
    | some monoBuffer =>
      .ok { pp with
        leftChannelFifo := fifo
        monoBuffer := monoBuffer
        leftChannelFFTDataGenerator :=
          ops.produceFFTDataForRendering pp.leftChannelFFTDataGenerator monoBuffer }
  | (none, fifo) => .ok { pp with leftChannelFifo := fifo }

/-- Body of the second loop of `process`: if an FFT data block can be pulled,
generate a path from it. -/
def producePathsBody (ops : Collaborators S F G P Frame Path Bounds Rate)
    (fftBounds : Bounds) (sampleRate : Rate)
    (pp : PathProducer S F G P Path) : Except Fault (PathProducer S F G P Path) :=
  match ops.getFFTData pp.leftChannelFFTDataGenerator with
  | (some fftData, generator) =>
    .ok { pp with
      leftChannelFFTDataGenerator := generator
      pathProducer := ops.generatePath pp.pathProducer fftData fftBounds sampleRate }
  | (none, generator) => .ok { pp with leftChannelFFTDataGenerator := generator }

/-- Body of the third loop of `process`: `pathProducer.getPath (leftChannelFFTPath)`. -/
def pullPathsBody (ops : Collaborators S F G P Frame Path Bounds Rate)
    (pp : PathProducer S F G P Path) : Except Fault (PathProducer S F G P Path) :=
  match ops.getPath pp.pathProducer with
  | (some path, pathProducer) =>
    .ok { pp with pathProducer := pathProducer, leftChannelFFTPath := path }
  | (none, pathProducer) => .ok { pp with pathProducer := pathProducer }

/-- First loop of `process`: `while (getNumCompleteBuffersAvailable () > 0)`. -/
def sendSamples (ops : Collaborators S F G P Frame Path Bounds Rate) (fuel : Nat)
    (pp : PathProducer S F G P Path) : Except Fault (PathProducer S F G P Path) :=
  whileLoop (fun pp => decide (ops.getNumCompleteBuffersAvailable pp.leftChannelFifo > 0))
    (sendSamplesBody ops) fuel pp

/-- Second loop of `process`: `while (getNumAvailableFFTDataBlocks () > 0)`. -/
def producePaths (ops : Collaborators S F G P Frame Path Bounds Rate)
    (fftBounds : Bounds) (sampleRate : Rate) (fuel : Nat)
    (pp : PathProducer S F G P Path) : Except Fault (PathProducer S F G P Path) :=
  whileLoop
    (fun pp => decide (ops.getNumAvailableFFTDataBlocks pp.leftChannelFFTDataGenerator > 0))
    (producePathsBody ops fftBounds sampleRate) fuel pp

/-- Third loop of `process`: `while (pathProducer.getNumPathsAvailable ())`. -/
def pullPaths (ops : Collaborators S F G P Frame Path Bounds Rate) (fuel : Nat)
    (pp : PathProducer S F G P Path) : Except Fault (PathProducer S F G P Path) :=
  whileLoop (fun pp => decide (ops.getNumPathsAvailable pp.pathProducer ≠ 0))
    (pullPathsBody ops) fuel pp

/-- `PathProducer::process`; each of its three loops may run `fuel` iterations. -/
def process (ops : Collaborators S F G P Frame Path Bounds Rate)
    (fftBounds : Bounds) (sampleRate : Rate) (fuel : Nat)
    (pp : PathProducer S F G P Path) : Except Fault (PathProducer S F G P Path) :=
  match sendSamples ops fuel pp with
  | .error e => .error e
  | .ok pp =>
    match producePaths ops fftBounds sampleRate fuel pp with
    | .error e => .error e
    | .ok pp => pullPaths ops fuel pp

/-- The elements the next `n` pulls of a queue return, in pull order. -/
def pulled {Q X : Type} (pull : Q → Option X × Q) : Nat → Q → List X
  | 0, _ => []
  | n + 1, q =>
    match pull q with
    | (some x, q) => x :: pulled pull n q
    | (none, q) => pulled pull n q

/-- The state of a queue after `n` pulls. -/
def afterPulls {Q X : Type} (pull : Q → Option X × Q) : Nat → Q → Q
  | 0, q => q
  | n + 1, q => afterPulls pull n (pull q).2

/-- The assumption on a queue: whenever its count is positive, a pull succeeds
and lowers the count by one. -/
def PullsWhenAvailable {Q X : Type} (available : Q → Nat) (pull : Q → Option X × Q) : Prop :=
  ∀ q, 0 < available q → (∃ x, (pull q).1 = some x) ∧ available (pull q).2 + 1 = available q

/-- The last `n` elements of a list. -/
def lastSamples (n : Nat) (l : List S) : List S := l.drop (l.length - n)

/-- The successive contents of the window as the blocks are shifted in, oldest
block first: after each block, the window without its oldest samples followed
by the block. -/
def windowsAfter : List S → List (List S) → List (List S)
  | _, [] => []
  | w, b :: bs => (w.drop b.length ++ b) :: windowsAfter (w.drop b.length ++ b) bs

/-- The first two loops of `process`: the state in which the third loop, which
pulls the paths, starts. -/
def beforePullPaths (ops : Collaborators S F G P Frame Path Bounds Rate)
    (fftBounds : Bounds) (sampleRate : Rate) (fuel : Nat)
    (pp : PathProducer S F G P Path) : Except Fault (PathProducer S F G P Path) :=
  match sendSamples ops fuel pp with
  | .error e => .error e
  | .ok pp => producePaths ops fftBounds sampleRate fuel pp

/-- Pull from a queue kept as a list, oldest element first. -/
def pullFront {X : Type} : List X → Option X × List X
  | [] => (none, [])
  | x :: xs => (some x, xs)

/-- A concrete instance with list queues: the analysis frame of a window is the
window itself, the path of a frame is the frame itself. -/
def exampleOps : Collaborators Nat (List (List Nat)) (List (List Nat)) (List (List Nat))
    (List Nat) (List Nat) Unit Unit where
  getNumCompleteBuffersAvailable := List.length
  getAudioBuffer := pullFront
  produceFFTDataForRendering := fun generator monoBuffer => generator ++ [monoBuffer]
  getNumAvailableFFTDataBlocks := List.length
  getFFTData := pullFront
  generatePath := fun paths fftData _ _ => paths ++ [fftData]
  getNumPathsAvailable := List.length
  getPath := pullFront

/-- A producer with a window of four samples and two blocks waiting in the FIFO. -/
def examplePathProducer :
    PathProducer Nat (List (List Nat)) (List (List Nat)) (List (List Nat)) (List Nat) where
  leftChannelFifo := [[5, 6], [7]]
  monoBuffer := [1, 2, 3, 4]
  leftChannelFFTDataGenerator := []
  pathProducer := []
  leftChannelFFTPath := [0]

/-- A producer whose FIFO holds one block of five samples, one more than the
window has. -/
def oversizedPathProducer :
    PathProducer Nat (List (List Nat)) (List (List Nat)) (List (List Nat)) (List Nat) where
  leftChannelFifo := [[5, 6, 7, 8, 9]]
  monoBuffer := [1, 2, 3, 4]
  leftChannelFFTDataGenerator := []
  pathProducer := []
  leftChannelFFTPath := [0]

/-- A producer with nothing waiting in any queue. -/
def idlePathProducer :
    PathProducer Nat (List (List Nat)) (List (List Nat)) (List (List Nat)) (List Nat) where
  leftChannelFifo := []
  monoBuffer := [1, 2, 3, 4]
  leftChannelFFTDataGenerator := []
  pathProducer := []
  leftChannelFFTPath := [0]

end Process

/-! ## `ResponseCurveComponent`: notifications, `updateChain`, `timerCallback` -/

section Timer

variable {S F G P Frame Path Bounds Rate C Settings Coefficients Slope Apvts : Type}

/-- What `updateChain` uses from outside this file, as parameters:
`getChainSettings`, the fields of the chain settings it reads, the three
coefficient designs, `updateCoefficients (old, replacements)` and
`updateCutFilter (chain, coefficients, slope)`. -/
structure ChainDesign (Apvts Settings C Coefficients Slope Rate : Type) where
  getChainSettings : Apvts → Settings
  lowCutBypassed : Settings → Bool
  peakBypassed : Settings → Bool
  highCutBypassed : Settings → Bool
  lowCutSlope : Settings → Slope
  highCutSlope : Settings → Slope
  makePeakFilter : Settings → Rate → C
  makeLowCutFilter : Settings → Rate → Coefficients
  makeHighCutFilter : Settings → Rate → Coefficients
  updateCoefficients : C → C → C
  updateCutFilter : CutFilter C → Coefficients → Slope → CutFilter C

/-- The members of `ResponseCurveComponent` that the timer tick uses, the
parameter store and sample rate of the processor, and two counters that
record how often `updateChain` and `repaint` have been called. -/
structure ResponseCurveComponent (S F G P Path C Apvts Rate : Type) where
  localBounds : Rectangle
  apvts : Apvts
  sampleRate : Rate
  shouldShowFFTAnalysis : Bool
  parametersChanged : Bool
  leftPathProducer : PathProducer S F G P Path
  rightPathProducer : PathProducer S F G P Path
  monoChain : MonoChain C
  updateChainCalls : Nat
  repaintCalls : Nat

/-- `ResponseCurveComponent::parameterValueChanged`: `parametersChanged.set (true)`. -/
def parameterValueChanged {V : Type} (c : ResponseCurveComponent S F G P Path C Apvts Rate)
    (_parameterIndex : Int) (_newValue : V) : ResponseCurveComponent S F G P Path C Apvts Rate :=
  { c with parametersChanged := true }

/-- `Atomic<bool>::compareAndSetBool (newValue, valueToCompare)`: if the value
equals `valueToCompare` it becomes `newValue` and the call returns `true`;
otherwise it is left alone and the call returns `false`.  The result is the
returned flag and the value afterwards. -/
def compareAndSetBool (value newValue valueToCompare : Bool) : Bool × Bool :=
  if value = valueToCompare then (true, newValue) else (false, value)

/-- `ResponseCurveComponent::updateChain`. -/
def updateChain (design : ChainDesign Apvts Settings C Coefficients Slope Rate)
    (c : ResponseCurveComponent S F G P Path C Apvts Rate) :
    ResponseCurveComponent S F G P Path C Apvts Rate :=
  let chainSettings := design.getChainSettings c.apvts
  let monoChain := { c.monoChain with
    lowCutBypassed := design.lowCutBypassed chainSettings
    peakBypassed := design.peakBypassed chainSettings
    highCutBypassed := design.highCutBypassed chainSettings }
  let peakCoefficients := design.makePeakFilter chainSettings c.sampleRate
  let monoChain := { monoChain with
    peak := design.updateCoefficients monoChain.peak peakCoefficients }
  let lowCutCoefficients := design.makeLowCutFilter chainSettings c.sampleRate
  let highCutCoefficients := design.makeHighCutFilter chainSettings c.sampleRate
  let monoChain := { monoChain with
    lowCut := design.updateCutFilter monoChain.lowCut lowCutCoefficients
      (design.lowCutSlope chainSettings) }
  let monoChain := { monoChain with
    highCut := design.updateCutFilter monoChain.highCut highCutCoefficients
      (design.highCutSlope chainSettings) }
  { c with monoChain := monoChain, updateChainCalls := c.updateChainCalls + 1 }

/-- `repaint ()`, as far as it is followed here: the call is counted. -/
def repaint (c : ResponseCurveComponent S F G P Path C Apvts Rate) :
    ResponseCurveComponent S F G P Path C Apvts Rate :=
  { c with repaintCalls := c.repaintCalls + 1 }

/-- The first statement of `timerCallback`: when the analysis is shown, both
path producers `process` the analysis area at the current sample rate. -/
def runAnalysis (ops : Collaborators S F G P Frame Path Bounds Rate)
    (toFloat : Rectangle → Bounds) (fuel : Nat)
    (c : ResponseCurveComponent S F G P Path C Apvts Rate) :
    Except Fault (ResponseCurveComponent S F G P Path C Apvts Rate) :=
  if c.shouldShowFFTAnalysis then
    let fftBounds := toFloat (getAnalysisArea c.localBounds)
    let sampleRate := c.sampleRate
    match process ops fftBounds sampleRate fuel c.leftPathProducer with
    | .error e => .error e
    | .ok left =>
      match process ops fftBounds sampleRate fuel c.rightPathProducer with
      | .error e => .error e
      | .ok right => .ok { c with leftPathProducer := left, rightPathProducer := right }
  else .ok c

/-- `ResponseCurveComponent::timerCallback`. -/
def timerCallback (ops : Collaborators S F G P Frame Path Bounds Rate)
    (design : ChainDesign Apvts Settings C Coefficients Slope Rate)
    (toFloat : Rectangle → Bounds) (fuel : Nat)
    (c : ResponseCurveComponent S F G P Path C Apvts Rate) :
    Except Fault (ResponseCurveComponent S F G P Path C Apvts Rate) :=
  match runAnalysis ops toFloat fuel c with
  | .error e => .error e
  | .ok c =>
    let swapped := compareAndSetBool c.parametersChanged false true
    let c := { c with parametersChanged := swapped.2 }
    let c := if swapped.1 then updateChain design c else c
    .ok (repaint c)

/-- `n` parameter-change notifications in a row. -/
def notifications {V : Type} (n : Nat) (c : ResponseCurveComponent S F G P Path C Apvts Rate)
    (newValue : V) : ResponseCurveComponent S F G P Path C Apvts Rate :=
  (List.range n).foldl (fun c i => parameterValueChanged c (Int.ofNat i) newValue) c

/-- A trivial design over integer coefficients: nothing is bypassed and every
coefficient is replaced by the designed one. -/
def exampleDesign : ChainDesign Unit Unit Int Int Unit Unit where
  getChainSettings := fun _ => ()
  lowCutBypassed := fun _ => false
  peakBypassed := fun _ => false
  highCutBypassed := fun _ => false
  lowCutSlope := fun _ => ()
  highCutSlope := fun _ => ()
  makePeakFilter := fun _ _ => 2
  makeLowCutFilter := fun _ _ => 3
  makeHighCutFilter := fun _ _ => 5
  updateCoefficients := fun _ replacements => replacements
  updateCutFilter := fun chain coefficients _ =>
    { chain with coefficients0 := coefficients, isBypassed0 := false }

/-- A component showing the analysis, with blocks waiting on the left channel
and no parameter change pending. -/
def exampleComponent : ResponseCurveComponent Nat (List (List Nat)) (List (List Nat))
    (List (List Nat)) (List Nat) Int Unit Unit where
  localBounds := getLocalBounds 600 117
  apvts := ()
  sampleRate := ()
  shouldShowFFTAnalysis := true
  parametersChanged := false
  leftPathProducer := examplePathProducer
  rightPathProducer := idlePathProducer
  monoChain := exampleChain
  updateChainCalls := 1
  repaintCalls := 0

/-- No block waiting in the FIFO of a path producer is longer than its mono
window. -/
def blocksFitWindow (ops : Collaborators S F G P Frame Path Bounds Rate)
    (pp : PathProducer S F G P Path) : Prop :=
  ∀ b ∈ pulled ops.getAudioBuffer
      (ops.getNumCompleteBuffersAvailable pp.leftChannelFifo) pp.leftChannelFifo,
    b.length ≤ pp.monoBuffer.length

/-- The condition on a component under which the two `process` calls of a
tick run through: on each of the three queues a pull succeeds and lowers the
count by one whenever the count is positive, and in both channels the waiting
blocks fit the mono window. -/
def analysisCanRun (ops : Collaborators S F G P Frame Path Bounds Rate)
    (c : ResponseCurveComponent S F G P Path C Apvts Rate) : Prop :=
  PullsWhenAvailable ops.getNumCompleteBuffersAvailable ops.getAudioBuffer ∧
  PullsWhenAvailable ops.getNumAvailableFFTDataBlocks ops.getFFTData ∧
  PullsWhenAvailable ops.getNumPathsAvailable ops.getPath ∧
  blocksFitWindow ops c.leftPathProducer ∧ blocksFitWindow ops c.rightPathProducer

/-- Nothing is waiting in any of the three queues of a path producer. -/
def queuesEmpty (ops : Collaborators S F G P Frame Path Bounds Rate)
    (pp : PathProducer S F G P Path) : Prop :=
  ops.getNumCompleteBuffersAvailable pp.leftChannelFifo = 0 ∧
  ops.getNumAvailableFFTDataBlocks pp.leftChannelFFTDataGenerator = 0 ∧
  ops.getNumPathsAvailable pp.pathProducer = 0

/-- A component showing the analysis, with a parameter change pending and, on
the left channel, a block of five samples waiting for a window of four. -/
def oversizedComponent : ResponseCurveComponent Nat (List (List Nat)) (List (List Nat))
    (List (List Nat)) (List Nat) Int Unit Unit :=
  { exampleComponent with
    parametersChanged := true
    leftPathProducer := oversizedPathProducer }

end Timer

/-! ## `EqualizerAudioProcessorEditor`: the bypass buttons -/

/-- The toggle state of the three bypass buttons and the enabled state of the
seven sliders of the editor. -/
structure EqualizerAudioProcessorEditor where
  peakBypassButton : Bool
  lowCutBypassButton : Bool
  highCutBypassButton : Bool
  peakFreqSlider : Bool
  peakGainSlider : Bool
  peakQualitySlider : Bool
  lowCutFreqSlider : Bool
  lowCutSlopeSlider : Bool
  highCutFreqSlider : Bool
  highCutSlopeSlider : Bool
deriving DecidableEq, Repr

/-- `peakBypassButton.onClick`; `safePtr` is `none` once the editor is gone. -/
def peakBypassButtonOnClick (safePtr : Option EqualizerAudioProcessorEditor) :
    Option EqualizerAudioProcessorEditor :=
  match safePtr with
  | some comp =>
    let bypassed := comp.peakBypassButton
    some { comp with
      peakFreqSlider := !bypassed
      peakGainSlider := !bypassed
      peakQualitySlider := !bypassed }
  | none => none

/-- `lowCutBypassButton.onClick`. -/
def lowCutBypassButtonOnClick (safePtr : Option EqualizerAudioProcessorEditor) :
    Option EqualizerAudioProcessorEditor :=
  match safePtr with
  | some comp =>
    let bypassed := comp.lowCutBypassButton
    some { comp with
      lowCutFreqSlider := !bypassed
      lowCutSlopeSlider := !bypassed }
  | none => none

/-- `highCutBypassButton.onClick`: `bypassed` is read from `lowCutBypassButton`. -/
def highCutBypassButtonOnClick (safePtr : Option EqualizerAudioProcessorEditor) :
    Option EqualizerAudioProcessorEditor :=
  match safePtr with
  | some comp =>
    let bypassed := comp.lowCutBypassButton
    some { comp with
      highCutFreqSlider := !bypassed
      highCutSlopeSlider := !bypassed }
  | none => none

/-- An editor with every slider enabled, the high-cut bypass button toggled on
and the two other bypass buttons off. -/
def editorHighCutBypassed : EqualizerAudioProcessorEditor where
  peakBypassButton := false
  lowCutBypassButton := false
  highCutBypassButton := true
  peakFreqSlider := true
  peakGainSlider := true
  peakQualitySlider := true
  lowCutFreqSlider := true
  lowCutSlopeSlider := true
  highCutFreqSlider := true
  highCutSlopeSlider := true

/-! ## The frequency axis: `mapToLog10`, `mapFromLog10` and the grid of `resized` -/

section Axis

variable {α : Type}

/-- `juce::mapToLog10 (value0To1, logRangeMin, logRangeMax)`:
`pow (10, value0To1 * (logMax - logMin) + logMin)` with `logMin`, `logMax` the
decimal logarithms of the range ends.  `std::pow` and `std::log10` are
parameters. -/
def mapToLog10 [Add α] [Sub α] [Mul α] [IntCast α] (pow : α → α → α) (log10 : α → α)
    (value0To1 logRangeMin logRangeMax : α) : α :=
  let logMin := log10 logRangeMin
  let logMax := log10 logRangeMax
  pow ((10 : Int) : α) (value0To1 * (logMax - logMin) + logMin)

/-- `juce::mapFromLog10 (valueInLogRange, logRangeMin, logRangeMax)`:
`(log10 (valueInLogRange) - logMin) / (logMax - logMin)`. -/
def mapFromLog10 [Sub α] [Div α] (log10 : α → α)
    (valueInLogRange logRangeMin logRangeMax : α) : α :=
  let logMin := log10 logRangeMin
  let logMax := log10 logRangeMax
  (log10 valueInLogRange - logMin) / (logMax - logMin)

/-- The frequencies of the vertical grid lines of `resized`. -/
def gridFrequencies : List Int := [20, 50, 100, 200, 500, 1000, 2000, 5000, 10000, 20000]

/-- The x position `resized` gives the grid line of frequency `f`:
`left + width * normX` with `normX = mapFromLog10 (f, 20.f, 20000.f)` and
`left`, `width` taken from the analysis area. -/
def gridLineX [Add α] [Sub α] [Mul α] [Div α] [IntCast α] (log10 : α → α)
    (renderArea : Rectangle) (f : α) : α :=
  let left := renderArea.getX
  let width := renderArea.getWidth
  let normX := mapFromLog10 log10 f ((20 : Int) : α) ((20000 : Int) : α)
  (left : α) + (width : α) * normX

/-- The array `xs` of `resized`: one x position per grid frequency. -/
def gridLineXs [Add α] [Sub α] [Mul α] [Div α] [IntCast α] (log10 : α → α)
    (renderArea : Rectangle) : List α :=
  gridFrequencies.map fun f => gridLineX log10 renderArea (f : α)

/-- The x coordinate of the point of column `i` of the response curve:
`responseArea.getX () + i`. -/
def curvePointX (responseArea : Rectangle) (i : Nat) : Int :=
  responseArea.getX + Int.ofNat i

end Axis

/-! ## Proofs: response curve -/

section PaintProofs

variable {C α : Type}

theorem foldl_mul_optional [Mul α] (b : Bool) (m x : α) :
    List.foldl (· * ·) m (if b then [] else [x]) = if !b then m * x else m := by
  cases b <;> rfl

theorem foldl_cutStageMagnitudes [Mul α] (dsp : Dsp C α) (cut : CutFilter C)
    (freq sampleRate m : α) :
    List.foldl (· * ·) m (cutStageMagnitudes dsp cut freq sampleRate) =
      (let mag := m
       let mag := if !cut.isBypassed0 then
         mag * dsp.getMagnitudeForFrequency cut.coefficients0 freq sampleRate else mag
       let mag := if !cut.isBypassed1 then
         mag * dsp.getMagnitudeForFrequency cut.coefficients1 freq sampleRate else mag
       let mag := if !cut.isBypassed2 then
         mag * dsp.getMagnitudeForFrequency cut.coefficients2 freq sampleRate else mag
       let mag := if !cut.isBypassed3 then
         mag * dsp.getMagnitudeForFrequency cut.coefficients3 freq sampleRate else mag
       mag) := by
  simp only [cutStageMagnitudes, List.foldl_append, foldl_mul_optional]

theorem columnMagnitude_eq_productOf [Mul α] [One α] (dsp : Dsp C α) (monoChain : MonoChain C)
    (freq sampleRate : α) :
    columnMagnitude dsp monoChain freq sampleRate =
      productOf (activeStageMagnitudes dsp monoChain freq sampleRate) := by
  simp only [productOf, activeStageMagnitudes, paintOrder, List.flatMap_cons, List.flatMap_nil,
    List.append_nil, bandMagnitudes, List.foldl_append, foldl_mul_optional, columnMagnitude]
  cases monoChain.lowCutBypassed <;> cases monoChain.highCutBypassed <;>
    simp [foldl_cutStageMagnitudes]

theorem foldlM_storeAt (g : Nat → α) (n : Nat) (mags : List α) (h : n ≤ mags.length) :
    (List.range n).foldlM (fun (m : List α) (i : Nat) => storeAt m i (g i)) mags =
      some ((List.range n).map g ++ mags.drop n) := by
  induction n with
  | zero => simp
  | succ k ih =>
    have hk : k < mags.length := h
    rw [List.range_succ, List.foldlM_append, ih (Nat.le_of_lt hk)]
    have hlen : k < ((List.range k).map g ++ mags.drop k).length := by
      simp; omega
    simp only [List.foldlM_cons, List.foldlM_nil, storeAt, Option.some_bind,
      Option.bind_eq_bind, pure]
    rw [if_pos hlen]
    simp only [Option.some_bind, Option.some.injEq]
    apply List.ext_getElem
    · simp; omega
    · intro i h1 h2
      simp only [List.getElem_set, List.getElem_append, List.length_map, List.length_range,
        List.getElem_map, List.getElem_range, List.length_append, List.length_singleton,
        List.map_append, List.map_cons, List.map_nil, List.getElem_drop]
      by_cases hik : i < k
      · have : ¬ k = i := by omega
        have : i < k + 1 := by omega
        simp [*]
      · by_cases hik2 : i = k
        · subst hik2
          simp
        · have h3 : ¬ k = i := fun h => hik2 h.symm
          have h4 : ¬ i < k + 1 := by omega
          simp only [hik, h3, h4, if_false, dite_false]
          congr 1
          omega

theorem productOf_eq_prod {M : Type} [Monoid M] (factors : List M) :
    productOf factors = factors.prod := by
  have h : ∀ (l : List M) (m : M), List.foldl (· * ·) m l = m * l.prod := by
    intro l
    induction l with
    | nil => intro m; simp
    | cons x xs ih => intro m; simp [ih, mul_assoc]
  simp [productOf, h]

theorem paintMags_eq [Mul α] [One α] [Zero α] [Div α] [IntCast α] (dsp : Dsp C α)
    (monoChain : MonoChain C) (sampleRate : α) (width : Int) :
    paintMags dsp monoChain sampleRate width =
      if width < 0 then none
      else some ((List.range width.toNat).map fun i =>
        dsp.gainToDecibels
          (columnMagnitude dsp monoChain (columnFrequency dsp (Int.ofNat i) width) sampleRate)) := by
  unfold paintMags
  split
  · rfl
  · simp only
    rw [foldlM_storeAt (fun i => dsp.gainToDecibels
      (columnMagnitude dsp monoChain (columnFrequency dsp (Int.ofNat i) width) sampleRate))]
    · simp
    · simp

theorem paintMags_of_nonneg [Mul α] [One α] [Zero α] [Div α] [IntCast α] (dsp : Dsp C α)
    (monoChain : MonoChain C) (sampleRate : α) (width : Int) (h : 0 ≤ width) :
    paintMags dsp monoChain sampleRate width =
      some ((List.range width.toNat).map fun i =>
        dsp.gainToDecibels
          (columnMagnitude dsp monoChain (columnFrequency dsp (Int.ofNat i) width) sampleRate)) := by
  rw [paintMags_eq, if_neg (not_lt.mpr h)]

/-- C1. For every width that is not negative, the value `paint` stores in
`mags[i]` is `gainToDecibels` of the product of the magnitude responses, at
the frequency of column `i` and the sample rate, of exactly the stages that
are not bypassed (`activeStageMagnitudes`); a bypassed band contributes no
factor, and with all three bands bypassed the list of factors is empty and
the product is `1`. -/
theorem paint_mags_product_of_active_stages [Mul α] [One α] [Zero α] [Div α] [IntCast α]
    (dsp : Dsp C α) (monoChain : MonoChain C) (sampleRate : α) (width : Int) :
    paintMags dsp monoChain sampleRate width =
      (if width < 0 then none
       else some ((List.range width.toNat).map fun i =>
        dsp.gainToDecibels (productOf
          (activeStageMagnitudes dsp monoChain
            (columnFrequency dsp (Int.ofNat i) width) sampleRate))))
    ∧ (∀ band freq, monoChain.isBypassed band = true →
        bandMagnitudes dsp monoChain freq sampleRate band = [])
    ∧ (∀ freq,
        activeStageMagnitudes dsp
          { monoChain with lowCutBypassed := true, peakBypassed := true,
                           highCutBypassed := true } freq sampleRate = []
        ∧ columnMagnitude dsp
          { monoChain with lowCutBypassed := true, peakBypassed := true,
                           highCutBypassed := true } freq sampleRate = 1) := by
  refine ⟨?_, ?_, ?_⟩
  · rw [paintMags_eq]
    simp only [columnMagnitude_eq_productOf]
  · intro band freq hb
    cases band <;> simp_all [bandMagnitudes, MonoChain.isBypassed]
  · intro freq
    constructor
    · simp [activeStageMagnitudes, paintOrder, bandMagnitudes]
    · simp [columnMagnitude]

theorem paint_mags_product_of_active_stages_witness :
    exampleChain.isBypassed .HighCut = true ∧
    bandMagnitudes exampleDsp exampleChain 1000 48000 .HighCut = [] ∧
    activeStageMagnitudes exampleDsp exampleChain 1000 48000 = [2, 3, 5] ∧
    paintMags exampleDsp exampleChain 48000 3 = some [30, 30, 30] :=
  have h := paint_mags_product_of_active_stages exampleDsp exampleChain 48000 3
  ⟨rfl, h.2.1 .HighCut 1000 rfl, rfl, h.1.trans rfl⟩

/-- C2. Bypass identity: if two chain states agree on everything except the
coefficients and per-section bypass flags of a band, and that band's bypass
flag is set in both, then `paint` computes the same magnitude at every
frequency (and the same `mags` for every width) in both, and that magnitude is
the one of the chain with the band's factors omitted from the product. -/
theorem bypass_identity [Mul α] [One α] [Zero α] [Div α] [IntCast α]
    (dsp : Dsp C α) (band : ChainPositions) (c1 c2 : MonoChain C)
    (hagree : agreeOutside band c1 c2)
    (h1 : c1.isBypassed band = true) (h2 : c2.isBypassed band = true)
    (freq sampleRate : α) (width : Int) :
    columnMagnitude dsp c1 freq sampleRate = columnMagnitude dsp c2 freq sampleRate
    ∧ columnMagnitude dsp c1 freq sampleRate = magnitudeOmitting band dsp c1 freq sampleRate
    ∧ columnMagnitude dsp c2 freq sampleRate = magnitudeOmitting band dsp c2 freq sampleRate
    ∧ paintMags dsp c1 sampleRate width = paintMags dsp c2 sampleRate width := by
  have key : ∀ f : α, activeStageMagnitudes dsp c1 f sampleRate =
      activeStageMagnitudes dsp c2 f sampleRate := by
    intro f
    obtain ⟨hl, hp, hh, hlc, hpk, hhc⟩ := hagree
    cases band
    · have e1 := hpk (by decide)
      have e2 := hhc (by decide)
      simp only [MonoChain.isBypassed] at h1 h2
      simp [activeStageMagnitudes, paintOrder, bandMagnitudes, h1, h2, e1, e2, ← hp, ← hh]
    · have e1 := hlc (by decide)
      have e2 := hhc (by decide)
      simp only [MonoChain.isBypassed] at h1 h2
      simp [activeStageMagnitudes, paintOrder, bandMagnitudes, h1, h2, e1, e2, ← hl, ← hh]
    · have e1 := hlc (by decide)
      have e2 := hpk (by decide)
      simp only [MonoChain.isBypassed] at h1 h2
      simp [activeStageMagnitudes, paintOrder, bandMagnitudes, h1, h2, e1, e2, ← hl, ← hp]
  have homit : ∀ c : MonoChain C, c.isBypassed band = true →
      columnMagnitude dsp c freq sampleRate = magnitudeOmitting band dsp c freq sampleRate := by
    intro c hc
    rw [columnMagnitude_eq_productOf]
    cases band <;> simp only [MonoChain.isBypassed] at hc <;>
      simp [magnitudeOmitting, activeStageMagnitudes, paintOrder, bandMagnitudes, hc]
  refine ⟨?_, homit c1 h1, homit c2 h2, ?_⟩
  · rw [columnMagnitude_eq_productOf, columnMagnitude_eq_productOf, key]
  · rw [paintMags_eq, paintMags_eq]
    simp only [columnMagnitude_eq_productOf, key]

theorem bypass_identity_witness :
    agreeOutside .HighCut exampleChain exampleChainOtherHighCut ∧
    columnMagnitude exampleDsp exampleChain 1000 48000 =
      columnMagnitude exampleDsp exampleChainOtherHighCut 1000 48000 ∧
    columnMagnitude exampleDsp exampleChain 1000 48000 =
      magnitudeOmitting .HighCut exampleDsp exampleChain 1000 48000 :=
  have hagree : agreeOutside .HighCut exampleChain exampleChainOtherHighCut := by
    simp [agreeOutside, exampleChain, exampleChainOtherHighCut]
  have h := bypass_identity exampleDsp .HighCut exampleChain exampleChainOtherHighCut
    hagree rfl rfl 1000 48000 3
  ⟨hagree, h.1, h.2.1⟩

theorem getAnalysisArea_getLocalBounds (width height : Nat) :
    (getAnalysisArea (getLocalBounds width height)).getWidth = max 0 ((width : Int) - 40) ∧
    (getAnalysisArea (getLocalBounds width height)).getX = min 20 (width : Int) := by
  simp only [getAnalysisArea, getRenderArea, getLocalBounds, Rectangle.removeFromTop,
    Rectangle.removeFromBottom, Rectangle.removeFromLeft, Rectangle.removeFromRight,
    Rectangle.getWidth, Rectangle.getX]
  omega

theorem curveSegments_length [IntCast α] (dsp : Dsp C α) (responseArea : Rectangle)
    (start : Nat) (rest : List α) :
    (curveSegments dsp responseArea start rest).length = rest.length := by
  simp [curveSegments]

theorem foldlM_lineTo [IntCast α] (dsp : Dsp C α) (responseArea : Rectangle) (mags : List α) :
    ∀ (post pre : List α) (path : List (PathElement α)), mags = pre ++ post →
      (List.range' pre.length post.length).foldlM
        (fun (path : List (PathElement α)) (i : Nat) =>
          match mags[i]? with
          | none => none
          | some m =>
            some (path ++ [PathElement.lineTo (responseArea.getX + Int.ofNat i)
              (mapToArea dsp responseArea m)]))
        path = some (path ++ curveSegments dsp responseArea pre.length post) := by
  intro post
  induction post with
  | nil => intro pre path _; simp [curveSegments]
  | cons m post ih =>
    intro pre path hm
    have hget : mags[pre.length]? = some m := by
      rw [hm, List.getElem?_append_right (le_refl _)]; simp
    have hm2 : mags = (pre ++ [m]) ++ post := by simp [hm]
    have := ih (pre ++ [m]) (path ++ [PathElement.lineTo (responseArea.getX + Int.ofNat pre.length)
      (mapToArea dsp responseArea m)]) hm2
    simp only [List.length_append, List.length_singleton] at this
    simp only [List.length_cons, List.range'_succ, List.foldlM_cons, hget, Option.some_bind,
      Option.bind_eq_bind]
    rw [this]
    simp [curveSegments, List.enumFrom_cons]

theorem responseCurve_cons [IntCast α] (dsp : Dsp C α) (responseArea : Rectangle)
    (front : α) (rest : List α) :
    responseCurve dsp responseArea (front :: rest) =
      some (PathElement.startNewSubPath responseArea.getX (mapToArea dsp responseArea front) ::
        curveSegments dsp responseArea 1 rest) := by
  have := foldlM_lineTo dsp responseArea (front :: rest) rest [front]
    [PathElement.startNewSubPath responseArea.getX (mapToArea dsp responseArea front)] rfl
  simp only [List.length_singleton] at this
  simp only [responseCurve, List.head?_cons, List.length_cons, Nat.add_sub_cancel]
  rw [this]
  simp

theorem responseCurve_nil [IntCast α] (dsp : Dsp C α) (responseArea : Rectangle) :
    responseCurve dsp responseArea ([] : List α) = none := rfl

/-- For a component more than 40 pixels wide the curve has one point per
column of the analysis area, column `i` at `x = left + i`. -/
theorem paint_wide [Mul α] [One α] [Zero α] [Div α] [IntCast α] (dsp : Dsp C α)
    (monoChain : MonoChain C) (sampleRate : α) (componentWidth componentHeight : Nat)
    (hw : 40 < componentWidth) :
    ∃ path, paint dsp monoChain sampleRate componentWidth componentHeight = some path ∧
      path.length = componentWidth - 40 ∧
      ∀ i (hi : i < path.length),
        (∃ y, path[i] = PathElement.startNewSubPath (20 + Int.ofNat i) y ∧ i = 0) ∨
        (∃ y, path[i] = PathElement.lineTo (20 + Int.ofNat i) y ∧ 0 < i) := by
  obtain ⟨hwidth, hx⟩ := getAnalysisArea_getLocalBounds componentWidth componentHeight
  have hx20 : (getAnalysisArea (getLocalBounds componentWidth componentHeight)).getX = 20 := by
    rw [hx]; omega
  have hnat : ((getAnalysisArea (getLocalBounds componentWidth componentHeight)).getWidth).toNat
      = (componentWidth - 41) + 1 := by
    rw [hwidth]; omega
  have hnonneg : 0 ≤ (getAnalysisArea (getLocalBounds componentWidth componentHeight)).getWidth := by
    rw [hwidth]; omega
  unfold paint
  simp only [paintMags_of_nonneg _ _ _ _ hnonneg, hnat, List.range_succ_eq_map, List.map_cons,
    responseCurve_cons, hx20]
  refine ⟨_, rfl, ?_, ?_⟩
  · simp [curveSegments_length]; omega
  · intro i hi
    cases i with
    | zero => left; exact ⟨_, rfl, rfl⟩
    | succ j =>
      right
      simp only [List.getElem_cons_succ, curveSegments, List.getElem_map, List.getElem_enumFrom,
        hx20]
      exact ⟨_, by rw [Nat.add_comm 1 j], Nat.succ_pos j⟩

/-- At a component 40 pixels wide the analysis area is 0 columns wide, the
column loop leaves `mags` empty, and the read `mags.front ()` that starts the
response curve finds no element: `paint` has no result. -/
theorem paint_narrow_reads_missing_front [Mul α] [One α] [Zero α] [Div α] [IntCast α]
    (dsp : Dsp C α) (monoChain : MonoChain C) (sampleRate : α) :
    (getAnalysisArea (getLocalBounds 40 100)).getWidth = 0 ∧
    paintMags dsp monoChain sampleRate (getAnalysisArea (getLocalBounds 40 100)).getWidth
      = some [] ∧
    responseCurve dsp (getAnalysisArea (getLocalBounds 40 100)) ([] : List α) = none ∧
    paint dsp monoChain sampleRate 40 100 = none := by
  have hwidth : (getAnalysisArea (getLocalBounds 40 100)).getWidth = 0 := by decide
  refine ⟨hwidth, ?_, rfl, ?_⟩
  · rw [paintMags_of_nonneg _ _ _ _ (le_of_eq hwidth.symm), hwidth]; rfl
  · unfold paint
    simp only [paintMags_of_nonneg _ _ _ _ (le_of_eq hwidth.symm), hwidth]
    rfl

/-- C8, as stated, fails at analysis width 0: for a component 40 pixels wide
`mags` is empty after the column loop, so the read `mags.front ()` is not to
an existing element and no curve is built. -/
theorem paint_width_zero_has_no_front :
    (getAnalysisArea (getLocalBounds 40 100)).getWidth = 0 ∧
    paintMags exampleDsp exampleChain 48000
      (getAnalysisArea (getLocalBounds 40 100)).getWidth = some [] ∧
    responseCurve exampleDsp (getAnalysisArea (getLocalBounds 40 100)) ([] : List Int) = none ∧
    paint exampleDsp exampleChain 48000 40 100 = none :=
  paint_narrow_reads_missing_front exampleDsp exampleChain 48000

/-- C8, amended. For every component more than 40 pixels wide, of any height
(analysis width `w ≥ 1`), the column loop of `paint` fills `mags` with `w`
elements by stores that all hit the vector, `mags.front ()` and every
`mags[i]` read an existing element, and the response curve has one point per
display column: `w` points, column `i` at `x = left + i`. -/
theorem paint_one_point_per_column [Mul α] [One α] [Zero α] [Div α] [IntCast α]
    (dsp : Dsp C α) (monoChain : MonoChain C) (sampleRate : α)
    (componentWidth componentHeight : Nat) (hw : 40 < componentWidth) :
    (getAnalysisArea (getLocalBounds componentWidth componentHeight)).getWidth =
      ((componentWidth - 40 : Nat) : Int) ∧
    ∃ mags path,
      paintMags dsp monoChain sampleRate
        (getAnalysisArea (getLocalBounds componentWidth componentHeight)).getWidth = some mags ∧
      mags.length = componentWidth - 40 ∧
      (∃ front, mags.head? = some front) ∧
      responseCurve dsp (getAnalysisArea (getLocalBounds componentWidth componentHeight)) mags =
        some path ∧
      paint dsp monoChain sampleRate componentWidth componentHeight = some path ∧
      path.length = componentWidth - 40 ∧
      ∀ i (hi : i < path.length),
        (∃ y, path[i] = PathElement.startNewSubPath
          (curvePointX (getAnalysisArea (getLocalBounds componentWidth componentHeight)) i) y
            ∧ i = 0) ∨
        (∃ y, path[i] = PathElement.lineTo
          (curvePointX (getAnalysisArea (getLocalBounds componentWidth componentHeight)) i) y
            ∧ 0 < i) := by
  obtain ⟨hwidth, hx⟩ := getAnalysisArea_getLocalBounds componentWidth componentHeight
  have hx20 : (getAnalysisArea (getLocalBounds componentWidth componentHeight)).getX = 20 := by
    rw [hx]; omega
  have hnonneg : 0 ≤ (getAnalysisArea (getLocalBounds componentWidth componentHeight)).getWidth := by
    rw [hwidth]; omega
  have hnat : ((getAnalysisArea (getLocalBounds componentWidth componentHeight)).getWidth).toNat
      = componentWidth - 40 := by
    rw [hwidth]; omega
  obtain ⟨path, hpaint, hlen, hpoints⟩ :=
    paint_wide dsp monoChain sampleRate componentWidth componentHeight hw
  have hmags := paintMags_of_nonneg dsp monoChain sampleRate _ hnonneg
  refine ⟨by rw [hwidth]; omega, _, path, hmags, ?_, ?_, ?_, hpaint, hlen, ?_⟩
  · simp [hnat]
  · obtain ⟨k, hk⟩ : ∃ k, componentWidth - 40 = k + 1 := ⟨componentWidth - 41, by omega⟩
    rw [hnat, hk, List.range_succ_eq_map]
    exact ⟨_, rfl⟩
  · have h := hpaint
    unfold paint at h
    simp only [hmags] at h
    exact h
  · intro i hi
    simp only [curvePointX, hx20]
    exact hpoints i hi

theorem paint_one_point_per_column_witness :
    40 < 600 ∧
    (getAnalysisArea (getLocalBounds 600 116)).getWidth = 560 ∧
    ∃ mags path,
      paintMags exampleDsp exampleChain 48000
        (getAnalysisArea (getLocalBounds 600 116)).getWidth = some mags ∧
      mags.length = 560 ∧
      paint exampleDsp exampleChain 48000 600 116 = some path ∧
      path.length = 560 :=
  have h := paint_one_point_per_column exampleDsp exampleChain 48000 600 116 (by decide)
  ⟨by decide, by decide,
    h.2.elim fun mags hm => hm.elim fun path hp =>
      ⟨mags, path, hp.1, hp.2.1, hp.2.2.2.2.1, hp.2.2.2.2.2.1⟩⟩

end PaintProofs

/-! ## Proofs: the rolling window -/

section WindowProofs

variable {S : Type}

theorem copyWithinLoop_spec (n : Nat) :
    ∀ (k : Nat) (buffer : List S) (d : Nat), d + n + k ≤ buffer.length →
      ∃ r, copyWithinLoop buffer d (d + n) k = some r ∧ r.length = buffer.length ∧
        ∀ i, r[i]? = if d ≤ i ∧ i < d + k then buffer[i + n]? else buffer[i]? := by
  intro k
  induction k with
  | zero =>
    intro buffer d _
    refine ⟨buffer, rfl, rfl, ?_⟩
    intro i
    have : ¬ (d ≤ i ∧ i < d + 0) := by omega
    rw [if_neg this]
  | succ k ih =>
    intro buffer d h
    have hs : d + n < buffer.length := by omega
    have hd : d < buffer.length := by omega
    obtain ⟨r, hr, hlen, hget⟩ := ih (buffer.set d buffer[d + n]) (d + 1) (by simp; omega)
    refine ⟨r, ?_, by simpa using hlen, ?_⟩
    · have e : d + 1 + n = d + n + 1 := by omega
      rw [e] at hr
      simp only [copyWithinLoop, List.getElem?_eq_getElem hs, hd, if_true]
      exact hr
    · intro i
      rw [hget i]
      simp only [List.getElem?_set, hd, if_true]
      by_cases h1 : d + 1 ≤ i ∧ i < d + 1 + k
      · have h2 : d ≤ i ∧ i < d + (k + 1) := by omega
        have h3 : ¬ d = i + n := by omega
        simp [h1, h2, h3]
      · by_cases h4 : i = d
        · subst h4
          have h2 : i ≤ i ∧ i < i + (k + 1) := by omega
          simp [h1, h2, List.getElem?_eq_getElem hs]
        · have h2 : ¬ (d ≤ i ∧ i < d + (k + 1)) := by omega
          have h3 : ¬ d = i := fun e => h4 e.symm
          simp [h1, h2, h3]

theorem copyFromLoop_spec (src : List S) :
    ∀ (k : Nat) (dest : List S) (d s : Nat), d + k ≤ dest.length → s + k ≤ src.length →
      ∃ r, copyFromLoop dest d src s k = some r ∧ r.length = dest.length ∧
        ∀ i, r[i]? = if d ≤ i ∧ i < d + k then src[i - d + s]? else dest[i]? := by
  intro k
  induction k with
  | zero =>
    intro dest d s _ _
    refine ⟨dest, rfl, rfl, ?_⟩
    intro i
    have : ¬ (d ≤ i ∧ i < d + 0) := by omega
    rw [if_neg this]
  | succ k ih =>
    intro dest d s h1 h2
    have hs : s < src.length := by omega
    have hd : d < dest.length := by omega
    obtain ⟨r, hr, hlen, hget⟩ := ih (dest.set d src[s]) (d + 1) (s + 1)
      (by simp; omega) (by omega)
    refine ⟨r, ?_, by simpa using hlen, ?_⟩
    · simp only [copyFromLoop, List.getElem?_eq_getElem hs, hd, if_true]
      exact hr
    · intro i
      rw [hget i]
      simp only [List.getElem?_set, hd, if_true]
      by_cases h3 : d + 1 ≤ i ∧ i < d + 1 + k
      · have h4 : d ≤ i ∧ i < d + (k + 1) := by omega
        have h5 : i - (d + 1) + (s + 1) = i - d + s := by omega
        simp [h3, h4, h5]
      · by_cases h6 : i = d
        · subst h6
          have h4 : i ≤ i ∧ i < i + (k + 1) := by omega
          simp [h3, h4, List.getElem?_eq_getElem hs]
        · have h4 : ¬ (d ≤ i ∧ i < d + (k + 1)) := by omega
          have h5 : ¬ d = i := fun e => h6 e.symm
          simp [h3, h4, h5]

theorem shiftMonoBuffer_eq (monoBuffer block : List S) (h : block.length ≤ monoBuffer.length) :
    shiftMonoBuffer monoBuffer block = some (monoBuffer.drop block.length ++ block) := by
  obtain ⟨r1, hr1, hlen1, hget1⟩ := copyWithinLoop_spec block.length
    (monoBuffer.length - block.length) monoBuffer 0 (by omega)
  obtain ⟨r2, hr2, hlen2, hget2⟩ := copyFromLoop_spec block block.length r1
    (monoBuffer.length - block.length) 0 (by omega) (by omega)
  have e1 : ((monoBuffer.length : Int) - (block.length : Int)).toNat =
      monoBuffer.length - block.length := by omega
  have c1 : copyWithin monoBuffer 0 (block.length : Int)
      ((monoBuffer.length : Int) - (block.length : Int)) = some r1 := by
    have hneg : ¬ ((0 : Int) < 0 ∨ (block.length : Int) < 0 ∨
        (monoBuffer.length : Int) - (block.length : Int) < 0) := by omega
    simp only [copyWithin, hneg, if_false, e1, Int.toNat_ofNat, Int.toNat_zero]
    simpa using hr1
  have c2 : copyFrom r1 ((monoBuffer.length : Int) - (block.length : Int)) block 0
      (block.length : Int) = some r2 := by
    have hneg : ¬ ((monoBuffer.length : Int) - (block.length : Int) < 0 ∨ (0 : Int) < 0 ∨
        (block.length : Int) < 0) := by omega
    simp only [copyFrom, hneg, if_false, e1, Int.toNat_ofNat, Int.toNat_zero]
    exact hr2
  simp only [shiftMonoBuffer, c1, c2, Option.some.injEq]
  apply List.ext_getElem?
  intro i
  rw [hget2 i, hget1 i]
  by_cases hi : monoBuffer.length - block.length ≤ i ∧
      i < monoBuffer.length - block.length + block.length
  · have h4 : (monoBuffer.drop block.length).length ≤ i := by simp; omega
    rw [if_pos hi, List.getElem?_append_right h4]
    simp
  · rw [if_neg hi]
    by_cases h5 : i < monoBuffer.length - block.length
    · have h6 : i < (monoBuffer.drop block.length).length := by simp; omega
      have h0 : 0 ≤ i ∧ i < 0 + (monoBuffer.length - block.length) := by omega
      rw [if_pos h0, List.getElem?_append_left h6, List.getElem?_drop, Nat.add_comm]
    · have h7 : monoBuffer.length ≤ i := by omega
      have h8 : (monoBuffer.drop block.length ++ block).length ≤ i := by simp; omega
      have h0 : ¬ (0 ≤ i ∧ i < 0 + (monoBuffer.length - block.length)) := by omega
      rw [if_neg h0, List.getElem?_eq_none h7, List.getElem?_eq_none h8]

theorem shiftMonoBuffer_length (monoBuffer block r : List S)
    (h : shiftMonoBuffer monoBuffer block = some r) (hfit : block.length ≤ monoBuffer.length) :
    r.length = monoBuffer.length := by
  rw [shiftMonoBuffer_eq monoBuffer block hfit] at h
  cases h
  simp only [List.length_append, List.length_drop]; omega

theorem shiftMonoBuffer_too_long (monoBuffer block : List S)
    (h : monoBuffer.length < block.length) : shiftMonoBuffer monoBuffer block = none := by
  have hneg : ((0 : Int) < 0 ∨ (block.length : Int) < 0 ∨
      (monoBuffer.length : Int) - (block.length : Int) < 0) := by omega
  simp only [shiftMonoBuffer, copyWithin, hneg, if_true]

theorem lastSamples_append_block (w b rest : List S) (h : b.length ≤ w.length) :
    lastSamples w.length ((w.drop b.length ++ b) ++ rest) =
      lastSamples w.length ((w ++ b) ++ rest) := by
  have e1 : ((w.drop b.length ++ b) ++ rest).length - w.length = rest.length := by
    simp only [List.length_append, List.length_drop]; omega
  have e2 : ((w ++ b) ++ rest).length - w.length = b.length + rest.length := by
    simp only [List.length_append]; omega
  have e3 : (w ++ (b ++ rest)).drop b.length = w.drop b.length ++ (b ++ rest) :=
    List.drop_append_of_le_length h
  rw [lastSamples, lastSamples, e1, e2, ← List.drop_drop, List.append_assoc w b rest, e3,
    List.append_assoc]

theorem foldl_shift_eq_lastSamples :
    ∀ (blocks : List (List S)) (w : List S), (∀ b ∈ blocks, b.length ≤ w.length) →
      blocks.foldl (fun w b => w.drop b.length ++ b) w =
        lastSamples w.length (w ++ blocks.flatten) := by
  intro blocks
  induction blocks using List.reverseRecOn with
  | nil => intro w _; simp [lastSamples]
  | append_singleton bs b ih =>
    intro w hfit
    have hbs : ∀ x ∈ bs, x.length ≤ w.length := fun x hx => hfit x (by simp [hx])
    have hb : b.length ≤ w.length := hfit b (by simp)
    rw [List.foldl_append, ih w hbs]
    simp only [List.foldl_cons, List.foldl_nil, List.flatten_append, List.flatten_cons,
      List.flatten_nil, List.append_nil]
    have e4 : (w ++ bs.flatten).length - w.length + b.length =
        (w ++ (bs.flatten ++ b)).length - w.length := by
      simp only [List.length_append]; omega
    have e5 : (w ++ bs.flatten).length - w.length + b.length ≤ (w ++ bs.flatten).length := by
      simp only [List.length_append]; omega
    rw [lastSamples, lastSamples, List.drop_drop, ← e4, ← List.append_assoc,
      List.drop_append_of_le_length e5]

end WindowProofs

/-! ## Proofs: `process` -/

section ProcessProofs

variable {S F G P Frame Path Bounds Rate : Type}

theorem whileLoop_done {σ : Type} (cond : σ → Bool) (body : σ → Except Fault σ) (fuel : Nat)
    (s : σ) (h : cond s = false) : whileLoop cond body fuel s = .ok s := by
  cases fuel <;> simp [whileLoop, h]

theorem whileLoop_step {σ : Type} (cond : σ → Bool) (body : σ → Except Fault σ) (fuel : Nat)
    (s s' : σ) (h : cond s = true) (hb : body s = .ok s') :
    whileLoop cond body (fuel + 1) s = whileLoop cond body fuel s' := by
  simp [whileLoop, h, hb]

theorem available_afterPulls {Q X : Type} (available : Q → Nat) (pull : Q → Option X × Q)
    (h : PullsWhenAvailable available pull) :
    ∀ (n : Nat) (q : Q), available q = n → available (afterPulls pull n q) = 0 := by
  intro n
  induction n with
  | zero => intro q hq; simpa [afterPulls] using hq
  | succ n ih =>
    intro q hq
    have := (h q (by omega)).2
    exact ih (pull q).2 (by omega)

theorem pulled_length {Q X : Type} (available : Q → Nat) (pull : Q → Option X × Q)
    (h : PullsWhenAvailable available pull) :
    ∀ (n : Nat) (q : Q), available q = n → (pulled pull n q).length = n := by
  intro n
  induction n with
  | zero => intro q _; rfl
  | succ n ih =>
    intro q hq
    obtain ⟨⟨x, hx⟩, hdec⟩ := h q (by omega)
    have e : pull q = (some x, (pull q).2) := by rw [← hx]
    rw [pulled, e]
    simp only [List.length_cons]
    rw [ih (pull q).2 (by omega)]

theorem sendSamples_spec (ops : Collaborators S F G P Frame Path Bounds Rate)
    (hF : PullsWhenAvailable ops.getNumCompleteBuffersAvailable ops.getAudioBuffer) :
    ∀ (n fuel : Nat) (pp : PathProducer S F G P Path),
      ops.getNumCompleteBuffersAvailable pp.leftChannelFifo = n → n ≤ fuel →
      (∀ b ∈ pulled ops.getAudioBuffer n pp.leftChannelFifo,
        b.length ≤ pp.monoBuffer.length) →
      sendSamples ops fuel pp = .ok { pp with
        leftChannelFifo := afterPulls ops.getAudioBuffer n pp.leftChannelFifo
        monoBuffer := (pulled ops.getAudioBuffer n pp.leftChannelFifo).foldl
          (fun w b => w.drop b.length ++ b) pp.monoBuffer
        leftChannelFFTDataGenerator :=
          (windowsAfter pp.monoBuffer (pulled ops.getAudioBuffer n pp.leftChannelFifo)).foldl
            ops.produceFFTDataForRendering pp.leftChannelFFTDataGenerator } := by
  intro n
  induction n with
  | zero =>
    intro fuel pp hn _ _
    unfold sendSamples
    rw [whileLoop_done _ _ _ _ (by simp [hn])]
    rfl
  | succ n ih =>
    intro fuel pp hn hfuel hfit
    obtain ⟨fuel, rfl⟩ : ∃ k, fuel = k + 1 := ⟨fuel - 1, by omega⟩
    obtain ⟨⟨b, hb⟩, hdec⟩ := hF pp.leftChannelFifo (by omega)
    have e : ops.getAudioBuffer pp.leftChannelFifo =
        (some b, (ops.getAudioBuffer pp.leftChannelFifo).2) := by rw [← hb]
    have hpulled : pulled ops.getAudioBuffer (n + 1) pp.leftChannelFifo =
        b :: pulled ops.getAudioBuffer n (ops.getAudioBuffer pp.leftChannelFifo).2 := by
      rw [pulled, e]
    rw [hpulled] at hfit ⊢
    have hbfit : b.length ≤ pp.monoBuffer.length := hfit b (by simp)
    have hbody : sendSamplesBody ops pp = .ok { pp with
        leftChannelFifo := (ops.getAudioBuffer pp.leftChannelFifo).2
        monoBuffer := pp.monoBuffer.drop b.length ++ b
        leftChannelFFTDataGenerator :=
          ops.produceFFTDataForRendering pp.leftChannelFFTDataGenerator
            (pp.monoBuffer.drop b.length ++ b) } := by
      unfold sendSamplesBody
      rw [e]
      simp only [shiftMonoBuffer_eq pp.monoBuffer b hbfit]
    unfold sendSamples
    rw [whileLoop_step _ _ _ _ _ (by simp [hn]) hbody]
    have := ih fuel { pp with
        leftChannelFifo := (ops.getAudioBuffer pp.leftChannelFifo).2
        monoBuffer := pp.monoBuffer.drop b.length ++ b
        leftChannelFFTDataGenerator :=
          ops.produceFFTDataForRendering pp.leftChannelFFTDataGenerator
            (pp.monoBuffer.drop b.length ++ b) }
      (show ops.getNumCompleteBuffersAvailable
        (ops.getAudioBuffer pp.leftChannelFifo).2 = n by omega) (by omega)
      (by
        intro x hx
        have h1 := hfit x (List.mem_cons_of_mem _ hx)
        simp only [List.length_append, List.length_drop]
        omega)
    unfold sendSamples at this
    rw [this]
    rfl

theorem producePaths_spec (ops : Collaborators S F G P Frame Path Bounds Rate)
    (fftBounds : Bounds) (sampleRate : Rate)
    (hG : PullsWhenAvailable ops.getNumAvailableFFTDataBlocks ops.getFFTData) :
    ∀ (n fuel : Nat) (pp : PathProducer S F G P Path),
      ops.getNumAvailableFFTDataBlocks pp.leftChannelFFTDataGenerator = n → n ≤ fuel →
      producePaths ops fftBounds sampleRate fuel pp = .ok { pp with
        leftChannelFFTDataGenerator := afterPulls ops.getFFTData n pp.leftChannelFFTDataGenerator
        pathProducer := (pulled ops.getFFTData n pp.leftChannelFFTDataGenerator).foldl
          (fun p fftData => ops.generatePath p fftData fftBounds sampleRate) pp.pathProducer } := by
  intro n
  induction n with
  | zero =>
    intro fuel pp hn _
    unfold producePaths
    rw [whileLoop_done _ _ _ _ (by simp [hn])]
    rfl
  | succ n ih =>
    intro fuel pp hn hfuel
    obtain ⟨fuel, rfl⟩ : ∃ k, fuel = k + 1 := ⟨fuel - 1, by omega⟩
    obtain ⟨⟨x, hx⟩, hdec⟩ := hG pp.leftChannelFFTDataGenerator (by omega)
    have e : ops.getFFTData pp.leftChannelFFTDataGenerator =
        (some x, (ops.getFFTData pp.leftChannelFFTDataGenerator).2) := by rw [← hx]
    have hpulled : pulled ops.getFFTData (n + 1) pp.leftChannelFFTDataGenerator =
        x :: pulled ops.getFFTData n (ops.getFFTData pp.leftChannelFFTDataGenerator).2 := by
      rw [pulled, e]
    have hbody : producePathsBody ops fftBounds sampleRate pp = .ok { pp with
        leftChannelFFTDataGenerator := (ops.getFFTData pp.leftChannelFFTDataGenerator).2
        pathProducer := ops.generatePath pp.pathProducer x fftBounds sampleRate } := by
      unfold producePathsBody
      rw [e]
    unfold producePaths
    rw [whileLoop_step _ _ _ _ _ (by simp [hn]) hbody]
    have := ih fuel { pp with
        leftChannelFFTDataGenerator := (ops.getFFTData pp.leftChannelFFTDataGenerator).2
        pathProducer := ops.generatePath pp.pathProducer x fftBounds sampleRate }
      (show ops.getNumAvailableFFTDataBlocks
        (ops.getFFTData pp.leftChannelFFTDataGenerator).2 = n by omega) (by omega)
    unfold producePaths at this
    rw [this, hpulled]
    rfl

theorem pullPaths_spec (ops : Collaborators S F G P Frame Path Bounds Rate)
    (hP : PullsWhenAvailable ops.getNumPathsAvailable ops.getPath) :
    ∀ (n fuel : Nat) (pp : PathProducer S F G P Path),
      ops.getNumPathsAvailable pp.pathProducer = n → n ≤ fuel →
      pullPaths ops fuel pp = .ok { pp with
        pathProducer := afterPulls ops.getPath n pp.pathProducer
        leftChannelFFTPath :=
          ((pulled ops.getPath n pp.pathProducer).getLast?).getD pp.leftChannelFFTPath } := by
  intro n
  induction n with
  | zero =>
    intro fuel pp hn _
    unfold pullPaths
    rw [whileLoop_done _ _ _ _ (by simp [hn])]
    rfl
  | succ n ih =>
    intro fuel pp hn hfuel
    obtain ⟨fuel, rfl⟩ : ∃ k, fuel = k + 1 := ⟨fuel - 1, by omega⟩
    obtain ⟨⟨x, hx⟩, hdec⟩ := hP pp.pathProducer (by omega)
    have e : ops.getPath pp.pathProducer = (some x, (ops.getPath pp.pathProducer).2) := by
      rw [← hx]
    have hpulled : pulled ops.getPath (n + 1) pp.pathProducer =
        x :: pulled ops.getPath n (ops.getPath pp.pathProducer).2 := by
      rw [pulled, e]
    have hbody : pullPathsBody ops pp = .ok { pp with
        pathProducer := (ops.getPath pp.pathProducer).2
        leftChannelFFTPath := x } := by
      unfold pullPathsBody
      rw [e]
    unfold pullPaths
    rw [whileLoop_step _ _ _ _ _ (by simp [hn]) hbody]
    have := ih fuel { pp with
        pathProducer := (ops.getPath pp.pathProducer).2
        leftChannelFFTPath := x }
      (show ops.getNumPathsAvailable (ops.getPath pp.pathProducer).2 = n by omega) (by omega)
    unfold pullPaths at this
    rw [this, hpulled]
    simp only [afterPulls, PathProducer.mk.injEq, true_and, and_true]
    cases h : pulled ops.getPath n (ops.getPath pp.pathProducer).2 with
    | nil => simp
    | cons y ys => rw [List.getLast?_eq_getLast _ (List.cons_ne_nil y ys)]; rfl

theorem pullFront_pullsWhenAvailable {X : Type} :
    PullsWhenAvailable (List.length : List X → Nat) pullFront := by
  intro q hq
  cases q with
  | nil => simp at hq
  | cons x xs => exact ⟨⟨x, rfl⟩, rfl⟩

theorem windowsAfter_length : ∀ (blocks : List (List S)) (w : List S),
    (windowsAfter w blocks).length = blocks.length := by
  intro blocks
  induction blocks with
  | nil => intro w; rfl
  | cons b bs ih => intro w; simp [windowsAfter, ih]

theorem process_eq (ops : Collaborators S F G P Frame Path Bounds Rate)
    (fftBounds : Bounds) (sampleRate : Rate) (fuel : Nat) (pp : PathProducer S F G P Path) :
    process ops fftBounds sampleRate fuel pp =
      match beforePullPaths ops fftBounds sampleRate fuel pp with
      | .error e => .error e
      | .ok pp => pullPaths ops fuel pp := by
  unfold process beforePullPaths
  cases sendSamples ops fuel pp with
  | error e => rfl
  | ok pp1 => rfl

theorem whileLoop_invariant {σ : Type} (cond : σ → Bool) (body : σ → Except Fault σ)
    (I : σ → Prop) (hbody : ∀ s s', body s = .ok s' → I s → I s') :
    ∀ (fuel : Nat) (s s' : σ), whileLoop cond body fuel s = .ok s' → I s → I s' := by
  intro fuel
  induction fuel with
  | zero =>
    intro s s' h hI
    cases hc : cond s
    · simp [whileLoop, hc] at h
      exact h ▸ hI
    · simp [whileLoop, hc] at h
  | succ fuel ih =>
    intro s s' h hI
    cases hc : cond s
    · simp [whileLoop, hc] at h
      exact h ▸ hI
    · cases hb : body s with
      | error e => simp [whileLoop, hc, hb] at h
      | ok s1 =>
        simp only [whileLoop, hc, hb, if_true] at h
        exact ih s1 s' h (hbody s s1 hb hI)

theorem beforePullPaths_keeps_path (ops : Collaborators S F G P Frame Path Bounds Rate)
    (fftBounds : Bounds) (sampleRate : Rate) (fuel : Nat) (pp pp2 : PathProducer S F G P Path)
    (h : beforePullPaths ops fftBounds sampleRate fuel pp = .ok pp2) :
    pp2.leftChannelFFTPath = pp.leftChannelFFTPath := by
  unfold beforePullPaths at h
  cases h1 : sendSamples ops fuel pp with
  | error e => simp [h1] at h
  | ok pp1 =>
    simp only [h1] at h
    have a1 : pp1.leftChannelFFTPath = pp.leftChannelFFTPath := by
      refine whileLoop_invariant _ (sendSamplesBody ops)
        (fun s => s.leftChannelFFTPath = pp.leftChannelFFTPath) ?_ fuel pp pp1 h1 rfl
      intro s s' hs hI
      unfold sendSamplesBody at hs
      split at hs
      · split at hs
        · cases hs
        · cases hs; exact hI
      · cases hs; exact hI
    refine whileLoop_invariant _ (producePathsBody ops fftBounds sampleRate)
      (fun s => s.leftChannelFFTPath = pp.leftChannelFFTPath) ?_ fuel pp1 pp2 h a1
    intro s s' hs hI
    unfold producePathsBody at hs
    split at hs <;> (cases hs; exact hI)

theorem process_keeps_window (ops : Collaborators S F G P Frame Path Bounds Rate)
    (fftBounds : Bounds) (sampleRate : Rate) (fuel : Nat) (pp pp1 pp' : PathProducer S F G P Path)
    (h1 : sendSamples ops fuel pp = .ok pp1)
    (h : process ops fftBounds sampleRate fuel pp = .ok pp') :
    pp'.monoBuffer = pp1.monoBuffer := by
  unfold process at h
  simp only [h1] at h
  cases h2 : producePaths ops fftBounds sampleRate fuel pp1 with
  | error e => simp [h2] at h
  | ok pp2 =>
    simp only [h2] at h
    have a2 : pp2.monoBuffer = pp1.monoBuffer := by
      refine whileLoop_invariant _ (producePathsBody ops fftBounds sampleRate)
        (fun s => s.monoBuffer = pp1.monoBuffer) ?_ fuel pp1 pp2 h2 rfl
      intro s s' hs hI
      unfold producePathsBody at hs
      split at hs <;> (cases hs; exact hI)
    refine whileLoop_invariant _ (pullPathsBody ops)
      (fun s => s.monoBuffer = pp1.monoBuffer) ?_ fuel pp2 pp' h a2
    intro s s' hs hI
    unfold pullPathsBody at hs
    split at hs <;> (cases hs; exact hI)

theorem lastSamples_length (w rest : List S) :
    (lastSamples w.length (w ++ rest)).length = w.length := by
  simp only [lastSamples, List.length_drop, List.length_append]
  omega

/-- C4. Rolling window continuity: a block of `n ≤ W` samples turns the window
`w` of length `W` into `w[n..W)` followed by the block, again of length `W`;
and when the blocks waiting in the FIFO are drained in FIFO order, the sample
loop of `process` ends with the window holding the last `W` samples of `w`
followed by all the blocks (and `process` returns that window). -/
theorem rolling_window_continuity (ops : Collaborators S F G P Frame Path Bounds Rate)
    (fftBounds : Bounds) (sampleRate : Rate) (fuel : Nat) (pp : PathProducer S F G P Path)
    (hF : PullsWhenAvailable ops.getNumCompleteBuffersAvailable ops.getAudioBuffer)
    (hfuel : ops.getNumCompleteBuffersAvailable pp.leftChannelFifo ≤ fuel)
    (hfit : ∀ b ∈ pulled ops.getAudioBuffer
        (ops.getNumCompleteBuffersAvailable pp.leftChannelFifo) pp.leftChannelFifo,
      b.length ≤ pp.monoBuffer.length) :
    (∀ w b : List S, b.length ≤ w.length →
      shiftMonoBuffer w b = some (w.drop b.length ++ b) ∧
      (w.drop b.length ++ b).length = w.length) ∧
    ∃ pp1, sendSamples ops fuel pp = .ok pp1 ∧
      pp1.monoBuffer = lastSamples pp.monoBuffer.length
        (pp.monoBuffer ++ (pulled ops.getAudioBuffer
          (ops.getNumCompleteBuffersAvailable pp.leftChannelFifo)
          pp.leftChannelFifo).flatten) ∧
      pp1.monoBuffer.length = pp.monoBuffer.length ∧
      ∀ pp', process ops fftBounds sampleRate fuel pp = .ok pp' →
        pp'.monoBuffer = pp1.monoBuffer := by
  refine ⟨?_, ?_⟩
  · intro w b hb
    refine ⟨shiftMonoBuffer_eq w b hb, ?_⟩
    simp only [List.length_append, List.length_drop]
    omega
  · have h1 := sendSamples_spec ops hF _ fuel pp rfl hfuel hfit
    refine ⟨_, h1, ?_, ?_, ?_⟩
    · exact foldl_shift_eq_lastSamples _ _ hfit
    · show List.length (List.foldl _ _ _) = _
      rw [foldl_shift_eq_lastSamples _ _ hfit, lastSamples_length]
    · intro pp' hp
      exact process_keeps_window ops fftBounds sampleRate fuel pp _ pp' h1 hp

theorem rolling_window_continuity_witness :
    PullsWhenAvailable exampleOps.getNumCompleteBuffersAvailable exampleOps.getAudioBuffer ∧
    exampleOps.getNumCompleteBuffersAvailable examplePathProducer.leftChannelFifo ≤ 2 ∧
    (∀ b ∈ pulled exampleOps.getAudioBuffer 2 examplePathProducer.leftChannelFifo,
      b.length ≤ examplePathProducer.monoBuffer.length) ∧
    shiftMonoBuffer [1, 2, 3, 4] [5, 6] = some [3, 4, 5, 6] ∧
    ∃ pp1, sendSamples exampleOps 2 examplePathProducer = .ok pp1 ∧
      pp1.monoBuffer = [4, 5, 6, 7] :=
  have h := rolling_window_continuity exampleOps () () 2 examplePathProducer
    pullFront_pullsWhenAvailable (by decide) (by decide)
  ⟨pullFront_pullsWhenAvailable, by decide, by decide,
    (h.1 [1, 2, 3, 4] [5, 6] (by decide)).1,
    h.2.elim fun pp1 hpp1 => ⟨pp1, hpp1.1, hpp1.2.1⟩⟩

/-- C5. Most-recent path wins: once the first two loops of `process` have left
the producer in state `pp2`, the pull loop empties the path queue and
`process` returns; if at least one path was available to the pull loop, the
stored path is the last one in queue order, whatever was queued before it;
with no path available the stored path is the one `process` started with. -/
theorem most_recent_path_wins (ops : Collaborators S F G P Frame Path Bounds Rate)
    (fftBounds : Bounds) (sampleRate : Rate) (fuel : Nat) (pp pp2 : PathProducer S F G P Path)
    (hP : PullsWhenAvailable ops.getNumPathsAvailable ops.getPath)
    (h12 : beforePullPaths ops fftBounds sampleRate fuel pp = .ok pp2)
    (hfuel : ops.getNumPathsAvailable pp2.pathProducer ≤ fuel) :
    ∃ pp', process ops fftBounds sampleRate fuel pp = .ok pp' ∧
      ops.getNumPathsAvailable pp'.pathProducer = 0 ∧
      (pulled ops.getPath (ops.getNumPathsAvailable pp2.pathProducer)
        pp2.pathProducer).length = ops.getNumPathsAvailable pp2.pathProducer ∧
      (∀ hne : pulled ops.getPath (ops.getNumPathsAvailable pp2.pathProducer)
          pp2.pathProducer ≠ [],
        pp'.leftChannelFFTPath =
          (pulled ops.getPath (ops.getNumPathsAvailable pp2.pathProducer)
            pp2.pathProducer).getLast hne) ∧
      (ops.getNumPathsAvailable pp2.pathProducer = 0 →
        pp'.leftChannelFFTPath = pp.leftChannelFFTPath) := by
  have h3 := pullPaths_spec ops hP _ fuel pp2 rfl hfuel
  have hproc : process ops fftBounds sampleRate fuel pp = pullPaths ops fuel pp2 := by
    rw [process_eq, h12]
  rw [h3] at hproc
  refine ⟨_, hproc, ?_, ?_, ?_, ?_⟩
  · exact available_afterPulls _ _ hP _ _ rfl
  · exact pulled_length _ _ hP _ _ rfl
  · intro hne
    show Option.getD _ _ = _
    rw [List.getLast?_eq_getLast _ hne]
    rfl
  · intro h0
    show Option.getD _ _ = _
    rw [h0]
    exact beforePullPaths_keeps_path ops fftBounds sampleRate fuel pp pp2 h12

theorem most_recent_path_wins_witness :
    PullsWhenAvailable exampleOps.getNumPathsAvailable exampleOps.getPath ∧
    beforePullPaths exampleOps () () 2 examplePathProducer =
      .ok { leftChannelFifo := [], monoBuffer := [4, 5, 6, 7], leftChannelFFTDataGenerator := [],
            pathProducer := [[3, 4, 5, 6], [4, 5, 6, 7]], leftChannelFFTPath := [0] } ∧
    ∃ pp', process exampleOps () () 2 examplePathProducer = .ok pp' ∧
      exampleOps.getNumPathsAvailable pp'.pathProducer = 0 ∧
      pp'.leftChannelFFTPath = [4, 5, 6, 7] :=
  have h := most_recent_path_wins exampleOps () () 2 examplePathProducer
    { leftChannelFifo := [], monoBuffer := [4, 5, 6, 7], leftChannelFFTDataGenerator := [],
      pathProducer := [[3, 4, 5, 6], [4, 5, 6, 7]], leftChannelFFTPath := [0] }
    pullFront_pullsWhenAvailable rfl (by decide)
  ⟨pullFront_pullsWhenAvailable, rfl,
    h.elim fun pp' hpp' => ⟨pp', hpp'.1, hpp'.2.1, hpp'.2.2.2.1 (by decide)⟩⟩

/-- C7. No data, no change: with no complete block in the sample FIFO and the
FFT-frame and path queues empty, `process` returns the producer exactly as it
was: the FFT data generator is not fed, the mono window and the stored
render path are unchanged. -/
theorem no_data_no_change (ops : Collaborators S F G P Frame Path Bounds Rate)
    (fftBounds : Bounds) (sampleRate : Rate) (fuel : Nat) (pp : PathProducer S F G P Path)
    (hfifo : ops.getNumCompleteBuffersAvailable pp.leftChannelFifo = 0)
    (hframes : ops.getNumAvailableFFTDataBlocks pp.leftChannelFFTDataGenerator = 0)
    (hpaths : ops.getNumPathsAvailable pp.pathProducer = 0) :
    process ops fftBounds sampleRate fuel pp = .ok pp := by
  unfold process sendSamples producePaths pullPaths
  rw [whileLoop_done _ _ _ _ (by simp [hfifo])]
  simp only
  rw [whileLoop_done _ _ _ _ (by simp [hframes])]
  simp only
  rw [whileLoop_done _ _ _ _ (by simp [hpaths])]

theorem no_data_no_change_witness :
    exampleOps.getNumCompleteBuffersAvailable idlePathProducer.leftChannelFifo = 0 ∧
    exampleOps.getNumAvailableFFTDataBlocks idlePathProducer.leftChannelFFTDataGenerator = 0 ∧
    exampleOps.getNumPathsAvailable idlePathProducer.pathProducer = 0 ∧
    process exampleOps () () 0 idlePathProducer = .ok idlePathProducer :=
  ⟨rfl, rfl, rfl, no_data_no_change exampleOps () () 0 idlePathProducer rfl rfl rfl⟩

/-- C9, as stated, fails: with all three pulls succeeding whenever their count
is positive, a FIFO holding one block of five samples and a mono window of
four, `process` returns under no loop bound; the first copy is asked for
`4 - 5` elements and leaves the buffer. -/
theorem process_block_longer_than_window :
    PullsWhenAvailable exampleOps.getNumCompleteBuffersAvailable exampleOps.getAudioBuffer ∧
    PullsWhenAvailable exampleOps.getNumAvailableFFTDataBlocks exampleOps.getFFTData ∧
    PullsWhenAvailable exampleOps.getNumPathsAvailable exampleOps.getPath ∧
    shiftMonoBuffer oversizedPathProducer.monoBuffer [5, 6, 7, 8, 9] = none ∧
    (∀ fuel, process exampleOps () () (fuel + 1) oversizedPathProducer =
      .error .outOfBounds) ∧
    ¬ ∃ fuel pp', process exampleOps () () fuel oversizedPathProducer = .ok pp' := by
  have hstep : ∀ fuel, process exampleOps () () (fuel + 1) oversizedPathProducer =
      .error .outOfBounds := fun fuel => rfl
  refine ⟨pullFront_pullsWhenAvailable, pullFront_pullsWhenAvailable,
    pullFront_pullsWhenAvailable, rfl, hstep, ?_⟩
  rintro ⟨fuel, pp', h⟩
  cases fuel with
  | zero =>
    have h0 : process exampleOps () () 0 oversizedPathProducer = .error .outOfFuel := rfl
    rw [h0] at h
    cases h
  | succ fuel => rw [hstep fuel] at h; cases h

/-- C9, amended. Draining runs to completion: if on each of the three queues a
pull succeeds and lowers the count by one whenever the count is positive, and
no block waiting in the FIFO is longer than the mono window, then with enough
loop iterations allowed `process` returns; the FFT data generator has then
been called once per pulled block, in FIFO order, each time with the window
that block produced, and after that has only been pulled from; and on return
the sample FIFO holds no complete block and the frame queue (and the path
queue) is empty. -/
theorem process_runs_to_completion (ops : Collaborators S F G P Frame Path Bounds Rate)
    (fftBounds : Bounds) (sampleRate : Rate) (pp : PathProducer S F G P Path)
    (hF : PullsWhenAvailable ops.getNumCompleteBuffersAvailable ops.getAudioBuffer)
    (hG : PullsWhenAvailable ops.getNumAvailableFFTDataBlocks ops.getFFTData)
    (hP : PullsWhenAvailable ops.getNumPathsAvailable ops.getPath)
    (hfit : ∀ b ∈ pulled ops.getAudioBuffer
        (ops.getNumCompleteBuffersAvailable pp.leftChannelFifo) pp.leftChannelFifo,
      b.length ≤ pp.monoBuffer.length) :
    ∃ N, ∀ fuel, N ≤ fuel → ∃ pp1 pp',
      sendSamples ops fuel pp = .ok pp1 ∧
      pp1.leftChannelFFTDataGenerator =
        (windowsAfter pp.monoBuffer (pulled ops.getAudioBuffer
          (ops.getNumCompleteBuffersAvailable pp.leftChannelFifo) pp.leftChannelFifo)).foldl
          ops.produceFFTDataForRendering pp.leftChannelFFTDataGenerator ∧
      (windowsAfter pp.monoBuffer (pulled ops.getAudioBuffer
          (ops.getNumCompleteBuffersAvailable pp.leftChannelFifo) pp.leftChannelFifo)).length =
        ops.getNumCompleteBuffersAvailable pp.leftChannelFifo ∧
      process ops fftBounds sampleRate fuel pp = .ok pp' ∧
      pp'.leftChannelFFTDataGenerator =
        afterPulls ops.getFFTData
          (ops.getNumAvailableFFTDataBlocks pp1.leftChannelFFTDataGenerator)
          pp1.leftChannelFFTDataGenerator ∧
      ops.getNumCompleteBuffersAvailable pp'.leftChannelFifo = 0 ∧
      ops.getNumAvailableFFTDataBlocks pp'.leftChannelFFTDataGenerator = 0 ∧
      ops.getNumPathsAvailable pp'.pathProducer = 0 := by
  have h1 := fun fuel hfuel => sendSamples_spec ops hF _ fuel pp rfl hfuel hfit
  generalize hpp1 : ({ pp with
    leftChannelFifo := afterPulls ops.getAudioBuffer
      (ops.getNumCompleteBuffersAvailable pp.leftChannelFifo) pp.leftChannelFifo
    monoBuffer := (pulled ops.getAudioBuffer
      (ops.getNumCompleteBuffersAvailable pp.leftChannelFifo) pp.leftChannelFifo).foldl
        (fun w b => w.drop b.length ++ b) pp.monoBuffer
    leftChannelFFTDataGenerator :=
      (windowsAfter pp.monoBuffer (pulled ops.getAudioBuffer
        (ops.getNumCompleteBuffersAvailable pp.leftChannelFifo) pp.leftChannelFifo)).foldl
        ops.produceFFTDataForRendering pp.leftChannelFFTDataGenerator } :
    PathProducer S F G P Path) = pp1 at h1
  have h2 := fun fuel hfuel =>
    producePaths_spec ops fftBounds sampleRate hG _ fuel pp1 rfl hfuel
  generalize hpp2 : ({ pp1 with
    leftChannelFFTDataGenerator := afterPulls ops.getFFTData
      (ops.getNumAvailableFFTDataBlocks pp1.leftChannelFFTDataGenerator)
      pp1.leftChannelFFTDataGenerator
    pathProducer := (pulled ops.getFFTData
      (ops.getNumAvailableFFTDataBlocks pp1.leftChannelFFTDataGenerator)
      pp1.leftChannelFFTDataGenerator).foldl
      (fun p fftData => ops.generatePath p fftData fftBounds sampleRate) pp1.pathProducer } :
    PathProducer S F G P Path) = pp2 at h2
  have h3 := fun fuel hfuel => pullPaths_spec ops hP _ fuel pp2 rfl hfuel
  refine ⟨max (ops.getNumCompleteBuffersAvailable pp.leftChannelFifo)
    (max (ops.getNumAvailableFFTDataBlocks pp1.leftChannelFFTDataGenerator)
      (ops.getNumPathsAvailable pp2.pathProducer)), ?_⟩
  intro fuel hfuel
  have f1 : ops.getNumCompleteBuffersAvailable pp.leftChannelFifo ≤ fuel :=
    le_trans (le_max_left _ _) hfuel
  have f2 : ops.getNumAvailableFFTDataBlocks pp1.leftChannelFFTDataGenerator ≤ fuel :=
    le_trans (le_trans (le_max_left _ _) (le_max_right _ _)) hfuel
  have f3 : ops.getNumPathsAvailable pp2.pathProducer ≤ fuel :=
    le_trans (le_trans (le_max_right _ _) (le_max_right _ _)) hfuel
  have hproc : process ops fftBounds sampleRate fuel pp = pullPaths ops fuel pp2 := by
    unfold process
    rw [h1 fuel f1]
    simp only
    rw [h2 fuel f2]
  rw [h3 fuel f3] at hproc
  refine ⟨pp1, _, h1 fuel f1, ?_, ?_, hproc, ?_, ?_, ?_, ?_⟩
  · rw [← hpp1]
  · rw [windowsAfter_length]
    exact pulled_length _ _ hF _ _ rfl
  · show pp2.leftChannelFFTDataGenerator = _
    rw [← hpp2]
  · show ops.getNumCompleteBuffersAvailable pp2.leftChannelFifo = 0
    rw [← hpp2, ← hpp1]
    exact available_afterPulls _ _ hF _ _ rfl
  · show ops.getNumAvailableFFTDataBlocks pp2.leftChannelFFTDataGenerator = 0
    rw [← hpp2]
    exact available_afterPulls _ _ hG _ _ rfl
  · exact available_afterPulls _ _ hP _ _ rfl

theorem process_runs_to_completion_witness :
    PullsWhenAvailable exampleOps.getNumCompleteBuffersAvailable exampleOps.getAudioBuffer ∧
    PullsWhenAvailable exampleOps.getNumAvailableFFTDataBlocks exampleOps.getFFTData ∧
    PullsWhenAvailable exampleOps.getNumPathsAvailable exampleOps.getPath ∧
    (∀ b ∈ pulled exampleOps.getAudioBuffer 2 examplePathProducer.leftChannelFifo,
      b.length ≤ examplePathProducer.monoBuffer.length) ∧
    ∃ N, ∀ fuel, N ≤ fuel → ∃ pp1 pp',
      sendSamples exampleOps fuel examplePathProducer = .ok pp1 ∧
      pp1.leftChannelFFTDataGenerator = [[3, 4, 5, 6], [4, 5, 6, 7]] ∧
      process exampleOps () () fuel examplePathProducer = .ok pp' ∧
      exampleOps.getNumCompleteBuffersAvailable pp'.leftChannelFifo = 0 ∧
      exampleOps.getNumAvailableFFTDataBlocks pp'.leftChannelFFTDataGenerator = 0 :=
  have h := process_runs_to_completion exampleOps () () examplePathProducer
    pullFront_pullsWhenAvailable pullFront_pullsWhenAvailable pullFront_pullsWhenAvailable
    (by decide)
  ⟨pullFront_pullsWhenAvailable, pullFront_pullsWhenAvailable, pullFront_pullsWhenAvailable,
    by decide,
    h.elim fun N hN => ⟨N, fun fuel hfuel =>
      (hN fuel hfuel).elim fun pp1 h1 => h1.elim fun pp' h2 =>
        ⟨pp1, pp', h2.1, h2.2.1, h2.2.2.2.1, h2.2.2.2.2.2.1, h2.2.2.2.2.2.2.1⟩⟩⟩

theorem process_idle (ops : Collaborators S F G P Frame Path Bounds Rate)
    (fftBounds : Bounds) (sampleRate : Rate) (fuel : Nat) (pp : PathProducer S F G P Path)
    (hfifo : ops.getNumCompleteBuffersAvailable pp.leftChannelFifo = 0)
    (hframes : ops.getNumAvailableFFTDataBlocks pp.leftChannelFFTDataGenerator = 0)
    (hpaths : ops.getNumPathsAvailable pp.pathProducer = 0) :
    process ops fftBounds sampleRate fuel pp = .ok pp := by
  unfold process sendSamples producePaths pullPaths
  rw [whileLoop_done _ _ _ _ (by simp [hfifo])]
  simp only
  rw [whileLoop_done _ _ _ _ (by simp [hframes])]
  simp only
  rw [whileLoop_done _ _ _ _ (by simp [hpaths])]

theorem process_returns (ops : Collaborators S F G P Frame Path Bounds Rate)
    (fftBounds : Bounds) (sampleRate : Rate) (pp : PathProducer S F G P Path)
    (hF : PullsWhenAvailable ops.getNumCompleteBuffersAvailable ops.getAudioBuffer)
    (hG : PullsWhenAvailable ops.getNumAvailableFFTDataBlocks ops.getFFTData)
    (hP : PullsWhenAvailable ops.getNumPathsAvailable ops.getPath)
    (hfit : ∀ b ∈ pulled ops.getAudioBuffer
        (ops.getNumCompleteBuffersAvailable pp.leftChannelFifo) pp.leftChannelFifo,
      b.length ≤ pp.monoBuffer.length) :
    ∃ N, ∀ fuel, N ≤ fuel → ∃ pp',
      process ops fftBounds sampleRate fuel pp = .ok pp' ∧
      ops.getNumCompleteBuffersAvailable pp'.leftChannelFifo = 0 ∧
      ops.getNumAvailableFFTDataBlocks pp'.leftChannelFFTDataGenerator = 0 ∧
      ops.getNumPathsAvailable pp'.pathProducer = 0 := by
  have h1 := fun fuel hfuel => sendSamples_spec ops hF _ fuel pp rfl hfuel hfit
  generalize hpp1 : ({ pp with
    leftChannelFifo := afterPulls ops.getAudioBuffer
      (ops.getNumCompleteBuffersAvailable pp.leftChannelFifo) pp.leftChannelFifo
    monoBuffer := (pulled ops.getAudioBuffer
      (ops.getNumCompleteBuffersAvailable pp.leftChannelFifo) pp.leftChannelFifo).foldl
        (fun w b => w.drop b.length ++ b) pp.monoBuffer
    leftChannelFFTDataGenerator :=
      (windowsAfter pp.monoBuffer (pulled ops.getAudioBuffer
        (ops.getNumCompleteBuffersAvailable pp.leftChannelFifo) pp.leftChannelFifo)).foldl
        ops.produceFFTDataForRendering pp.leftChannelFFTDataGenerator } :
    PathProducer S F G P Path) = pp1 at h1
  have h2 := fun fuel hfuel =>
    producePaths_spec ops fftBounds sampleRate hG _ fuel pp1 rfl hfuel
  generalize hpp2 : ({ pp1 with
    leftChannelFFTDataGenerator := afterPulls ops.getFFTData
      (ops.getNumAvailableFFTDataBlocks pp1.leftChannelFFTDataGenerator)
      pp1.leftChannelFFTDataGenerator
    pathProducer := (pulled ops.getFFTData
      (ops.getNumAvailableFFTDataBlocks pp1.leftChannelFFTDataGenerator)
      pp1.leftChannelFFTDataGenerator).foldl
      (fun p fftData => ops.generatePath p fftData fftBounds sampleRate) pp1.pathProducer } :
    PathProducer S F G P Path) = pp2 at h2
  have h3 := fun fuel hfuel => pullPaths_spec ops hP _ fuel pp2 rfl hfuel
  refine ⟨max (ops.getNumCompleteBuffersAvailable pp.leftChannelFifo)
    (max (ops.getNumAvailableFFTDataBlocks pp1.leftChannelFFTDataGenerator)
      (ops.getNumPathsAvailable pp2.pathProducer)), ?_⟩
  intro fuel hfuel
  have f1 : ops.getNumCompleteBuffersAvailable pp.leftChannelFifo ≤ fuel :=
    le_trans (le_max_left _ _) hfuel
  have f2 : ops.getNumAvailableFFTDataBlocks pp1.leftChannelFFTDataGenerator ≤ fuel :=
    le_trans (le_trans (le_max_left _ _) (le_max_right _ _)) hfuel
  have f3 : ops.getNumPathsAvailable pp2.pathProducer ≤ fuel :=
    le_trans (le_trans (le_max_right _ _) (le_max_right _ _)) hfuel
  have hproc : process ops fftBounds sampleRate fuel pp = pullPaths ops fuel pp2 := by
    unfold process
    rw [h1 fuel f1]
    simp only
    rw [h2 fuel f2]
  rw [h3 fuel f3] at hproc
  refine ⟨_, hproc, ?_, ?_, ?_⟩
  · show ops.getNumCompleteBuffersAvailable pp2.leftChannelFifo = 0
    rw [← hpp2, ← hpp1]
    exact available_afterPulls _ _ hF _ _ rfl
  · show ops.getNumAvailableFFTDataBlocks pp2.leftChannelFFTDataGenerator = 0
    rw [← hpp2]
    exact available_afterPulls _ _ hG _ _ rfl
  · exact available_afterPulls _ _ hP _ _ rfl

end ProcessProofs

/-! ## Proofs: the timer tick -/

section TimerProofs

variable {S F G P Frame Path Bounds Rate C Settings Coefficients Slope Apvts : Type}

theorem runAnalysis_keeps (ops : Collaborators S F G P Frame Path Bounds Rate)
    (toFloat : Rectangle → Bounds) (fuel : Nat)
    (c c' : ResponseCurveComponent S F G P Path C Apvts Rate)
    (h : runAnalysis ops toFloat fuel c = .ok c') :
    c'.parametersChanged = c.parametersChanged ∧ c'.updateChainCalls = c.updateChainCalls ∧
    c'.repaintCalls = c.repaintCalls := by
  unfold runAnalysis at h
  split at h
  · simp only at h
    split at h
    · cases h
    · split at h
      · cases h
      · cases h; exact ⟨rfl, rfl, rfl⟩
  · cases h; exact ⟨rfl, rfl, rfl⟩

theorem notifications_spec {V : Type} (c : ResponseCurveComponent S F G P Path C Apvts Rate)
    (newValue : V) (n : Nat) :
    notifications n c newValue =
      { c with parametersChanged := if n = 0 then c.parametersChanged else true } := by
  induction n with
  | zero => rfl
  | succ n ih =>
    unfold notifications at ih ⊢
    rw [List.range_succ, List.foldl_append, ih]
    rfl

theorem notifications_eq {V : Type} (c : ResponseCurveComponent S F G P Path C Apvts Rate)
    (newValue : V) (n : Nat) (hn : 1 ≤ n) :
    notifications n c newValue = { c with parametersChanged := true } := by
  rw [notifications_spec]
  have : ¬ n = 0 := by omega
  simp [this]

theorem runAnalysis_returns (ops : Collaborators S F G P Frame Path Bounds Rate)
    (toFloat : Rectangle → Bounds)
    (c : ResponseCurveComponent S F G P Path C Apvts Rate)
    (hrun : c.shouldShowFFTAnalysis = true → analysisCanRun ops c) :
    ∃ N, ∀ fuel, N ≤ fuel → ∃ c1, runAnalysis ops toFloat fuel c = .ok c1 ∧
      c1.shouldShowFFTAnalysis = c.shouldShowFFTAnalysis ∧
      (c.shouldShowFFTAnalysis = true →
        queuesEmpty ops c1.leftPathProducer ∧ queuesEmpty ops c1.rightPathProducer) := by
  cases hs : c.shouldShowFFTAnalysis
  · refine ⟨0, fun fuel _ => ⟨c, ?_, hs, fun h => by simp at h⟩⟩
    simp [runAnalysis, hs]
  · obtain ⟨hF, hG, hP, hl, hr⟩ := hrun hs
    obtain ⟨N1, h1⟩ := process_returns ops (toFloat (getAnalysisArea c.localBounds))
      c.sampleRate c.leftPathProducer hF hG hP hl
    obtain ⟨N2, h2⟩ := process_returns ops (toFloat (getAnalysisArea c.localBounds))
      c.sampleRate c.rightPathProducer hF hG hP hr
    refine ⟨max N1 N2, fun fuel hfuel => ?_⟩
    obtain ⟨l, hl1, hl2⟩ := h1 fuel (le_trans (le_max_left _ _) hfuel)
    obtain ⟨r, hr1, hr2⟩ := h2 fuel (le_trans (le_max_right _ _) hfuel)
    refine ⟨{ c with leftPathProducer := l, rightPathProducer := r }, ?_, hs, fun _ => ⟨hl2, hr2⟩⟩
    simp only [runAnalysis, hs, if_true, hl1, hr1]

theorem runAnalysis_idle (ops : Collaborators S F G P Frame Path Bounds Rate)
    (toFloat : Rectangle → Bounds) (fuel : Nat)
    (c : ResponseCurveComponent S F G P Path C Apvts Rate)
    (h : c.shouldShowFFTAnalysis = true →
      queuesEmpty ops c.leftPathProducer ∧ queuesEmpty ops c.rightPathProducer) :
    runAnalysis ops toFloat fuel c = .ok c := by
  cases hs : c.shouldShowFFTAnalysis
  · simp [runAnalysis, hs]
  · obtain ⟨⟨l1, l2, l3⟩, ⟨r1, r2, r3⟩⟩ := h hs
    simp only [runAnalysis, hs, if_true, process_idle ops _ _ fuel _ l1 l2 l3,
      process_idle ops _ _ fuel _ r1 r2 r3]
    cases c
    simp only at hs
    subst hs
    rfl

theorem timerCallback_after (ops : Collaborators S F G P Frame Path Bounds Rate)
    (design : ChainDesign Apvts Settings C Coefficients Slope Rate)
    (toFloat : Rectangle → Bounds) (fuel : Nat)
    (c c1 : ResponseCurveComponent S F G P Path C Apvts Rate)
    (h1 : runAnalysis ops toFloat fuel c = .ok c1) :
    ∃ c', timerCallback ops design toFloat fuel c = .ok c' ∧
      c'.updateChainCalls = c.updateChainCalls + (if c.parametersChanged then 1 else 0) ∧
      c'.parametersChanged = false ∧
      c'.shouldShowFFTAnalysis = c1.shouldShowFFTAnalysis ∧
      c'.leftPathProducer = c1.leftPathProducer ∧
      c'.rightPathProducer = c1.rightPathProducer := by
  obtain ⟨k1, k2, _⟩ := runAnalysis_keeps ops toFloat fuel c c1 h1
  unfold timerCallback
  rw [h1]
  cases hflag : c.parametersChanged
  · rw [hflag] at k1
    refine ⟨_, rfl, ?_, ?_, ?_, ?_, ?_⟩ <;>
      simp [compareAndSetBool, k1, k2, repaint]
  · rw [hflag] at k1
    refine ⟨_, rfl, ?_, ?_, ?_, ?_, ?_⟩ <;>
      simp [compareAndSetBool, k1, k2, repaint, updateChain]

/-- C6, as stated, fails: with the analysis shown, `parametersChanged` set and a
block of five samples waiting for a mono window of four, the tick stops in
the first `process` call, before the flag is looked at: under no loop bound
does `timerCallback` return, so `updateChain` is not called and the flag is
not cleared. -/
theorem timerCallback_stops_in_process :
    oversizedComponent.parametersChanged = true ∧
    oversizedComponent.shouldShowFFTAnalysis = true ∧
    PullsWhenAvailable exampleOps.getNumCompleteBuffersAvailable exampleOps.getAudioBuffer ∧
    PullsWhenAvailable exampleOps.getNumAvailableFFTDataBlocks exampleOps.getFFTData ∧
    PullsWhenAvailable exampleOps.getNumPathsAvailable exampleOps.getPath ∧
    (∀ fuel, timerCallback exampleOps exampleDesign (fun _ => ()) (fuel + 1) oversizedComponent =
      .error .outOfBounds) ∧
    ¬ ∃ fuel c', timerCallback exampleOps exampleDesign (fun _ => ()) fuel oversizedComponent =
      .ok c' := by
  have hstep : ∀ fuel,
      timerCallback exampleOps exampleDesign (fun _ => ()) (fuel + 1) oversizedComponent =
        .error .outOfBounds := fun fuel => rfl
  refine ⟨rfl, rfl, pullFront_pullsWhenAvailable, pullFront_pullsWhenAvailable,
    pullFront_pullsWhenAvailable, hstep, ?_⟩
  rintro ⟨fuel, c', h⟩
  cases fuel with
  | zero =>
    have h0 : timerCallback exampleOps exampleDesign (fun _ => ()) 0 oversizedComponent =
        .error .outOfFuel := rfl
    rw [h0] at h
    cases h
  | succ fuel => rw [hstep fuel] at h; cases h

/-- C6, amended. Dirty-flag tick: for every state in which the analysis is not
shown, or in which the pulls of the three queues succeed while their count is
positive and no waiting block is longer than the mono window, the timer tick
returns (given enough loop iterations), has called `updateChain` exactly once
if `parametersChanged` was set at the start of the tick and not at all
otherwise, and leaves the flag clear; so after `n ≥ 1` notifications the next
tick rebuilds the chain exactly once, and the tick after that, with no
notification in between, returns without rebuilding it. -/
theorem dirty_flag_tick {V : Type} (ops : Collaborators S F G P Frame Path Bounds Rate)
    (design : ChainDesign Apvts Settings C Coefficients Slope Rate)
    (toFloat : Rectangle → Bounds)
    (c : ResponseCurveComponent S F G P Path C Apvts Rate) (n : Nat) (newValue : V)
    (hn : 1 ≤ n)
    (hrun : c.shouldShowFFTAnalysis = true → analysisCanRun ops c) :
    ∃ N, ∀ fuel, N ≤ fuel →
      (∃ c', timerCallback ops design toFloat fuel c = .ok c' ∧
        c'.updateChainCalls = c.updateChainCalls + (if c.parametersChanged then 1 else 0) ∧
        c'.parametersChanged = false) ∧
      (∃ c1 c2, timerCallback ops design toFloat fuel (notifications n c newValue) = .ok c1 ∧
        c1.updateChainCalls = c.updateChainCalls + 1 ∧ c1.parametersChanged = false ∧
        timerCallback ops design toFloat fuel c1 = .ok c2 ∧
        c2.updateChainCalls = c1.updateChainCalls ∧ c2.parametersChanged = false) := by
  obtain ⟨N1, hN1⟩ := runAnalysis_returns ops toFloat c hrun
  obtain ⟨N2, hN2⟩ := runAnalysis_returns ops toFloat
    ({ c with parametersChanged := true } : ResponseCurveComponent S F G P Path C Apvts Rate)
    hrun
  refine ⟨max N1 N2, fun fuel hfuel => ⟨?_, ?_⟩⟩
  · obtain ⟨c1, h1, _, _⟩ := hN1 fuel (le_trans (le_max_left _ _) hfuel)
    obtain ⟨c', h, hc, hf, _⟩ := timerCallback_after ops design toFloat fuel c c1 h1
    exact ⟨c', h, hc, hf⟩
  · rw [notifications_eq c newValue n hn]
    obtain ⟨r1, h1, hs1, hidle⟩ := hN2 fuel (le_trans (le_max_right _ _) hfuel)
    obtain ⟨c1, ht1, hc1, hf1, hshow, hleft, hright⟩ :=
      timerCallback_after ops design toFloat fuel _ r1 h1
    have hidle1 : c1.shouldShowFFTAnalysis = true →
        queuesEmpty ops c1.leftPathProducer ∧ queuesEmpty ops c1.rightPathProducer := by
      intro hs
      rw [hleft, hright]
      exact hidle (by rw [← hs1, ← hshow]; exact hs)
    obtain ⟨c2, ht2, hc2, hf2, _⟩ := timerCallback_after ops design toFloat fuel c1 c1
      (runAnalysis_idle ops toFloat fuel c1 hidle1)
    refine ⟨c1, c2, ht1, ?_, hf1, ht2, ?_, hf2⟩
    · simpa using hc1
    · rw [hc2, hf1]
      simp

theorem dirty_flag_tick_witness :
    (1 ≤ 3) ∧
    (exampleComponent.shouldShowFFTAnalysis = true → analysisCanRun exampleOps exampleComponent) ∧
    (∃ N, ∀ fuel, N ≤ fuel →
      (∃ c', timerCallback exampleOps exampleDesign (fun _ => ()) fuel exampleComponent = .ok c' ∧
        c'.updateChainCalls = 1 ∧ c'.parametersChanged = false) ∧
      (∃ c1 c2,
        timerCallback exampleOps exampleDesign (fun _ => ()) fuel
          (notifications 3 exampleComponent (0 : Int)) = .ok c1 ∧
        c1.updateChainCalls = 2 ∧ c1.parametersChanged = false ∧
        timerCallback exampleOps exampleDesign (fun _ => ()) fuel c1 = .ok c2 ∧
        c2.updateChainCalls = c1.updateChainCalls ∧ c2.parametersChanged = false)) ∧
    (Except.toOption (timerCallback exampleOps exampleDesign (fun _ => ()) 2
      (notifications 3 exampleComponent (0 : Int)))).map (fun c => c.updateChainCalls) =
        some 2 :=
  have hrun : exampleComponent.shouldShowFFTAnalysis = true →
      analysisCanRun exampleOps exampleComponent :=
    fun _ => ⟨pullFront_pullsWhenAvailable, pullFront_pullsWhenAvailable,
      pullFront_pullsWhenAvailable, by unfold blocksFitWindow; decide,
      by unfold blocksFitWindow; decide⟩
  ⟨by decide, hrun,
    dirty_flag_tick exampleOps exampleDesign (fun _ => ()) exampleComponent 3 (0 : Int)
      (by decide) hrun,
    rfl⟩

end TimerProofs

/-! ## Proofs: the bypass buttons -/

/-- The peak and low-cut handlers enable the sliders of their own band exactly
when their own button is off, and leave every other field alone. -/
theorem peak_and_lowCut_onClick (comp : EqualizerAudioProcessorEditor) :
    peakBypassButtonOnClick (some comp) = some { comp with
      peakFreqSlider := !comp.peakBypassButton
      peakGainSlider := !comp.peakBypassButton
      peakQualitySlider := !comp.peakBypassButton } ∧
    lowCutBypassButtonOnClick (some comp) = some { comp with
      lowCutFreqSlider := !comp.lowCutBypassButton
      lowCutSlopeSlider := !comp.lowCutBypassButton } :=
  ⟨rfl, rfl⟩

/-- The high-cut handler sets the high-cut sliders from the low-cut button. -/
theorem highCut_onClick (comp : EqualizerAudioProcessorEditor) :
    highCutBypassButtonOnClick (some comp) = some { comp with
      highCutFreqSlider := !comp.lowCutBypassButton
      highCutSlopeSlider := !comp.lowCutBypassButton } :=
  rfl

/-- C10. With the high-cut bypass button toggled on and the low-cut bypass
button off, the high-cut handler leaves the high-cut sliders enabled, where
the band's own button asks for them to be disabled. -/
theorem highCut_onClick_reads_lowCut_button :
    editorHighCutBypassed.highCutBypassButton = true ∧
    editorHighCutBypassed.lowCutBypassButton = false ∧
    ∃ comp, highCutBypassButtonOnClick (some editorHighCutBypassed) = some comp ∧
      comp.highCutFreqSlider = true ∧ comp.highCutSlopeSlider = true ∧
      comp.highCutFreqSlider ≠ !comp.highCutBypassButton :=
  ⟨rfl, rfl, _, rfl, rfl, rfl, by decide⟩

/-! ## Proofs: drawing areas -/

theorem removeFrom_nonneg (r : Rectangle) (amount : Int) (ha : 0 ≤ amount)
    (hw : 0 ≤ r.w) (hh : 0 ≤ r.h) :
    (0 ≤ (r.removeFromTop amount).w ∧ 0 ≤ (r.removeFromTop amount).h ∧
      r.contains (r.removeFromTop amount)) ∧
    (0 ≤ (r.removeFromBottom amount).w ∧ 0 ≤ (r.removeFromBottom amount).h ∧
      r.contains (r.removeFromBottom amount)) ∧
    (0 ≤ (r.removeFromLeft amount).w ∧ 0 ≤ (r.removeFromLeft amount).h ∧
      r.contains (r.removeFromLeft amount)) ∧
    (0 ≤ (r.removeFromRight amount).w ∧ 0 ≤ (r.removeFromRight amount).h ∧
      r.contains (r.removeFromRight amount)) := by
  simp only [Rectangle.removeFromTop, Rectangle.removeFromBottom, Rectangle.removeFromLeft,
    Rectangle.removeFromRight, Rectangle.contains]
  omega

/-- C12. Nested drawing areas: for local bounds of non-negative width and
height the analysis area lies inside the render area, which lies inside the
local bounds, and both areas have non-negative width and height; when the
bounds are at least 40 wide and 22 high the render area is
`(x + 20, y + 12, w - 40, h - 14)` and the analysis area is
`(x + 20, y + 16, w - 40, h - 22)`. -/
theorem nested_drawing_areas (localBounds : Rectangle)
    (hw : 0 ≤ localBounds.w) (hh : 0 ≤ localBounds.h) :
    (getRenderArea localBounds).contains (getAnalysisArea localBounds) ∧
    localBounds.contains (getRenderArea localBounds) ∧
    0 ≤ (getRenderArea localBounds).getWidth ∧ 0 ≤ (getRenderArea localBounds).getHeight ∧
    0 ≤ (getAnalysisArea localBounds).getWidth ∧ 0 ≤ (getAnalysisArea localBounds).getHeight ∧
    (40 ≤ localBounds.w → 22 ≤ localBounds.h →
      getRenderArea localBounds =
        { x := localBounds.x + 20, y := localBounds.y + 12,
          w := localBounds.w - 40, h := localBounds.h - 14 } ∧
      getAnalysisArea localBounds =
        { x := localBounds.x + 20, y := localBounds.y + 16,
          w := localBounds.w - 40, h := localBounds.h - 22 }) := by
  obtain ⟨x, y, w, h⟩ := localBounds
  simp only at hw hh
  simp only [getAnalysisArea, getRenderArea, Rectangle.removeFromTop,
    Rectangle.removeFromBottom, Rectangle.removeFromLeft, Rectangle.removeFromRight,
    Rectangle.contains, Rectangle.getWidth, Rectangle.getHeight, Rectangle.mk.injEq]
  omega

theorem nested_drawing_areas_witness :
    (0 : Int) ≤ 600 ∧ (0 : Int) ≤ 117 ∧
    (getRenderArea ⟨0, 30, 600, 117⟩).contains (getAnalysisArea ⟨0, 30, 600, 117⟩) ∧
    getRenderArea ⟨0, 30, 600, 117⟩ = ⟨20, 42, 560, 103⟩ ∧
    getAnalysisArea ⟨0, 30, 600, 117⟩ = ⟨20, 46, 560, 95⟩ ∧
    getAnalysisArea ⟨0, 0, 30, 10⟩ = ⟨20, 10, 0, 0⟩ :=
  have h := nested_drawing_areas ⟨0, 30, 600, 117⟩ (by decide) (by decide)
  have hexact := h.2.2.2.2.2.2 (by decide) (by decide)
  ⟨by decide, by decide, h.1, hexact.1, hexact.2, by decide⟩

/-! ## Proofs: the frequency axis -/

section AxisProofs

theorem mapToLog10_real (v lo hi : ℝ) (hlo : 0 < lo) (hhi : 0 < hi) :
    mapToLog10 (fun b x : ℝ => b ^ x) (Real.logb 10) v lo hi = lo * (hi / lo) ^ v := by
  have h10 : (0 : ℝ) < 10 := by norm_num
  have h10' : (10 : ℝ) ≠ 1 := by norm_num
  simp only [mapToLog10, Int.cast_ofNat]
  rw [← Real.logb_div hhi.ne' hlo.ne', Real.rpow_add h10, Real.rpow_logb h10 h10' hlo,
    mul_comm v, Real.rpow_mul h10.le, Real.rpow_logb h10 h10' (div_pos hhi hlo), mul_comm]

theorem mapFromLog10_mapToLog10 (v lo hi : ℝ) (hlo : 0 < lo) (hlt : lo < hi) :
    mapFromLog10 (Real.logb 10)
      (mapToLog10 (fun b x : ℝ => b ^ x) (Real.logb 10) v lo hi) lo hi = v := by
  have h10 : (0 : ℝ) < 10 := by norm_num
  have h10' : (10 : ℝ) ≠ 1 := by norm_num
  have hD : 0 < Real.logb 10 hi - Real.logb 10 lo :=
    sub_pos.mpr (Real.logb_lt_logb (by norm_num) hlo hlt)
  simp only [mapToLog10, mapFromLog10, Int.cast_ofNat]
  rw [Real.logb_rpow h10 h10', add_sub_cancel_right, mul_div_assoc, div_self hD.ne', mul_one]

theorem columnFrequency_real {C : Type} (dsp : Dsp C ℝ)
    (hdsp : dsp.mapToLog10 = mapToLog10 (fun b x : ℝ => b ^ x) (Real.logb 10))
    (i width : Int) :
    columnFrequency dsp i width = 20 * (1000 : ℝ) ^ ((i : ℝ) / (width : ℝ)) := by
  have h : ((20 : Int) : ℝ) = 20 ∧ ((20000 : Int) : ℝ) = 20000 := by norm_num
  rw [columnFrequency, hdsp, h.1, h.2, mapToLog10_real _ _ _ (by norm_num) (by norm_num)]
  norm_num

/-- C11. Grid and curve share one frequency axis, over the reals: for an
analysis area of width `w > 0` and a column `0 ≤ i < w`, the frequency at which
`paint` evaluates the chain is `20 * 1000 ^ (i / w)`, lies in `[20, 20000)`
and is strictly smaller than the frequency of every later column; and the x
position `resized` computes for a grid line of that frequency,
`left + w * mapFromLog10 (f_i, 20, 20000)`, is `left + i`, the x of the curve
point of column `i` (`mapFromLog10` undoes `mapToLog10`). -/
theorem grid_and_curve_share_axis {C : Type} (dsp : Dsp C ℝ)
    (hdsp : dsp.mapToLog10 = mapToLog10 (fun b x : ℝ => b ^ x) (Real.logb 10))
    (responseArea : Rectangle) (i : Nat)
    (hw : 0 < responseArea.getWidth) (hi : Int.ofNat i < responseArea.getWidth) :
    columnFrequency dsp (Int.ofNat i) responseArea.getWidth =
      20 * (1000 : ℝ) ^ ((i : ℝ) / (responseArea.getWidth : ℝ)) ∧
    20 ≤ columnFrequency dsp (Int.ofNat i) responseArea.getWidth ∧
    columnFrequency dsp (Int.ofNat i) responseArea.getWidth < 20000 ∧
    (∀ j : Nat, i < j → Int.ofNat j < responseArea.getWidth →
      columnFrequency dsp (Int.ofNat i) responseArea.getWidth <
        columnFrequency dsp (Int.ofNat j) responseArea.getWidth) ∧
    mapFromLog10 (Real.logb 10)
      (columnFrequency dsp (Int.ofNat i) responseArea.getWidth) 20 20000 =
        (i : ℝ) / (responseArea.getWidth : ℝ) ∧
    gridLineX (Real.logb 10) responseArea
      (columnFrequency dsp (Int.ofNat i) responseArea.getWidth) =
        ((curvePointX responseArea i : Int) : ℝ) := by
  have hwR : (0 : ℝ) < (responseArea.getWidth : ℝ) := by exact_mod_cast hw
  have hiR : (i : ℝ) < (responseArea.getWidth : ℝ) := by
    have : ((i : Int) : ℝ) < (responseArea.getWidth : ℝ) := by exact_mod_cast hi
    simpa using this
  have hv0 : 0 ≤ (i : ℝ) / (responseArea.getWidth : ℝ) :=
    div_nonneg (Nat.cast_nonneg i) hwR.le
  have hv1 : (i : ℝ) / (responseArea.getWidth : ℝ) < 1 := (div_lt_one hwR).mpr hiR
  have h1000 : (1 : ℝ) < 1000 := by norm_num
  have hcast : ∀ k : Nat, ((Int.ofNat k : Int) : ℝ) = (k : ℝ) := fun k => by simp
  have hform : ∀ k : Nat, columnFrequency dsp (Int.ofNat k) responseArea.getWidth =
      20 * (1000 : ℝ) ^ ((k : ℝ) / (responseArea.getWidth : ℝ)) := by
    intro k
    rw [columnFrequency_real dsp hdsp, hcast]
  have hinv : mapFromLog10 (Real.logb 10)
      (columnFrequency dsp (Int.ofNat i) responseArea.getWidth) 20 20000 =
        (i : ℝ) / (responseArea.getWidth : ℝ) := by
    have h20 : ((20 : Int) : ℝ) = 20 ∧ ((20000 : Int) : ℝ) = 20000 := by norm_num
    rw [columnFrequency, hdsp, hcast, h20.1, h20.2]
    exact mapFromLog10_mapToLog10 _ 20 20000 (by norm_num) (by norm_num)
  refine ⟨hform i, ?_, ?_, ?_, hinv, ?_⟩
  · rw [hform]
    have := Real.one_le_rpow h1000.le hv0
    linarith
  · rw [hform]
    have : (1000 : ℝ) ^ ((i : ℝ) / (responseArea.getWidth : ℝ)) < (1000 : ℝ) ^ (1 : ℝ) :=
      (Real.rpow_lt_rpow_left_iff h1000).mpr hv1
    rw [Real.rpow_one] at this
    linarith
  · intro j hij _
    rw [hform, hform]
    have hlt : (i : ℝ) / (responseArea.getWidth : ℝ) < (j : ℝ) / (responseArea.getWidth : ℝ) :=
      div_lt_div_of_pos_right (by exact_mod_cast hij) hwR
    have := (Real.rpow_lt_rpow_left_iff h1000).mpr hlt
    linarith
  · have h20 : ((20 : Int) : ℝ) = 20 ∧ ((20000 : Int) : ℝ) = 20000 := by norm_num
    simp only [gridLineX, h20.1, h20.2, hinv, curvePointX, Int.cast_add, hcast]
    rw [mul_div_cancel₀ _ hwR.ne']

theorem grid_and_curve_share_axis_witness :
    ∃ dsp : Dsp Unit ℝ,
      dsp.mapToLog10 = mapToLog10 (fun b x : ℝ => b ^ x) (Real.logb 10) ∧
      0 < (Rectangle.mk 20 16 560 95).getWidth ∧
      Int.ofNat 280 < (Rectangle.mk 20 16 560 95).getWidth ∧
      20 ≤ columnFrequency dsp (Int.ofNat 280) (Rectangle.mk 20 16 560 95).getWidth ∧
      columnFrequency dsp (Int.ofNat 280) (Rectangle.mk 20 16 560 95).getWidth < 20000 ∧
      gridLineX (Real.logb 10) (Rectangle.mk 20 16 560 95)
        (columnFrequency dsp (Int.ofNat 280) (Rectangle.mk 20 16 560 95).getWidth) =
          ((curvePointX (Rectangle.mk 20 16 560 95) 280 : Int) : ℝ) ∧
      curvePointX (Rectangle.mk 20 16 560 95) 280 = 300 :=
  ⟨{ getMagnitudeForFrequency := fun _ _ _ => 1
     gainToDecibels := fun g => g
     mapToLog10 := mapToLog10 (fun b x : ℝ => b ^ x) (Real.logb 10)
     jmap := fun v _ _ _ _ => v },
    rfl, by decide, by decide,
    (grid_and_curve_share_axis _ rfl (Rectangle.mk 20 16 560 95) 280
      (by decide) (by decide)).2.1,
    (grid_and_curve_share_axis _ rfl (Rectangle.mk 20 16 560 95) 280
      (by decide) (by decide)).2.2.1,
    (grid_and_curve_share_axis _ rfl (Rectangle.mk 20 16 560 95) 280
      (by decide) (by decide)).2.2.2.2.2,
    by decide⟩

end AxisProofs

end Equalizer
